import Mathlib

/-!
Verification development for the medication dose-event scheduler.

The TypeScript source is embedded shallowly:
* JS numbers that hold integers (epoch milliseconds, offsets, counts) become `Int`;
  the only fractional arithmetic in the source (`1440 / frequency_per_day` followed by
  `Math.round`) is embedded over `ℚ`, which agrees with IEEE doubles on every validated
  frequency (1..6, all of which divide 1440 exactly).
* Throwing functions return `Except String α` carrying the thrown message.
* JS `Map` (insertion-ordered) becomes an insertion-ordered association list;
  `Map.set` is modelled by consing (shadowing) and `Map.get` by first-match lookup,
  which realises exactly the observable replace-on-set semantics.
* `Array.prototype.sort` (stable since ES2019) becomes `List.mergeSort` with a
  boolean order relation equivalent to `comparator a b ≤ 0`; `String.localeCompare`
  on the ASCII identifiers used here is modelled as code-point lexicographic order.
* ECMAScript `Date` internals (`Date.UTC`, `Date.parse`, `getUTC*`) are not part of
  the repository; they are modelled from the spec (proleptic Gregorian calendar over
  epoch milliseconds), see the doc comments on `civilFromDays`, `daysFromCivil`,
  `makeUTC` and `dateParseTz`.
-/

/-! ### Decimal digit strings (model of JS number-to-string and digit parsing) -/

/-- Fuel-indexed little-endian decimal digits of a natural number; with fuel at least
`n` this computes exactly `Nat.digits 10 n` (proved below) while remaining kernel-reducible. -/
def jsDigits : Nat → Nat → List Nat
  | 0, _ => []
  | fuel + 1, n => if n = 0 then [] else n % 10 :: jsDigits fuel (n / 10)

/-- Model of the JS number-to-string conversion for a nonnegative integer:
its decimal representation. -/
def natRepr (n : Nat) : String :=
  if n = 0 then "0" else String.mk (((jsDigits n n).reverse).map Nat.digitChar)

/-- Model of the JS number-to-string conversion for an integer. -/
def intRepr (i : Int) : String :=
  if i < 0 then "-" ++ natRepr i.natAbs else natRepr i.toNat

/-- Model of `String.prototype.padStart`. -/
def padStart (s : String) (n : Nat) (c : Char) : String :=
  String.mk (List.replicate (n - s.length) c) ++ s

/-- Two-digit zero padding of a number, as `x.toString().padStart(2, '0')`. -/
def pad2 (n : Int) : String :=
  padStart (intRepr n) 2 '0'

def isDigitChar (c : Char) : Bool :=
  decide ('0' ≤ c) && decide (c ≤ '9')

def digitVal (c : Char) : Int :=
  (c.toNat : Int) - 48

def parse2 (c1 c2 : Char) : Option Int :=
  if isDigitChar c1 && isDigitChar c2 then some (10 * digitVal c1 + digitVal c2) else none

def parse4 (c1 c2 c3 c4 : Char) : Option Int :=
  if isDigitChar c1 && isDigitChar c2 && isDigitChar c3 && isDigitChar c4 then
    some (1000 * digitVal c1 + 100 * digitVal c2 + 10 * digitVal c3 + digitVal c4)
  else none

/-- Value of a nonempty all-digit character list, most significant digit first. -/
def charsToNat (cs : List Char) : Nat :=
  cs.foldl (fun a c => a * 10 + (c.toNat - 48)) 0

/-- Modelled from the spec: the JS `Number(x)` conversion applied to the pieces of a
`YYYY-MM-DD` date string. It is modelled for nonnegative decimal-digit strings only
(returning `none` elsewhere); the scheduler only ever reaches it with such pieces. -/
def parseNatStr (s : String) : Option Nat :=
  if s.data ≠ [] && s.data.all isDigitChar then some (charsToNat s.data) else none

/-! ### Calendar arithmetic (model of ECMAScript Date internals) -/

/-- Modelled from the spec: the ECMAScript year/month/day extraction
(`getUTCFullYear`/`getUTCMonth`+1/`getUTCDate`) for a day number counted from
1970-01-01 in the proleptic Gregorian calendar. Written in Euclidean-affine style so
that each stage is a single constant division. Verified against the inverse
`daysFromCivil` below (`daysFromCivil_civilFromDays`). -/
def civilFromDays (z0 : Int) : Int × Int × Int :=
  let zs := z0 + 719468
  let era := zs / 146097
  let doe := zs % 146097
  let c := (4 * doe + 3) / 146097
  let doc := (4 * doe + 3) % 146097 / 4
  let yoc := (4 * doc + 3) / 1461
  let doy := (4 * doc + 3) % 1461 / 4
  let y := 400 * era + 100 * c + yoc
  let mp := (5 * doy + 2) / 153
  let d := doy - (153 * mp + 2) / 5 + 1
  let m := if mp < 10 then mp + 3 else mp - 9
  (if m ≤ 2 then y + 1 else y, m, d)

/-- Modelled from the spec: day number (from 1970-01-01, proleptic Gregorian) of a
calendar date, as computed by ECMAScript `MakeDay` for in-range months; `d` may be
out of range and contributes linearly, exactly as in `MakeDay`. -/
def daysFromCivil (y m d : Int) : Int :=
  let yp := if m ≤ 2 then y - 1 else y
  let era := yp / 400
  let yoe := yp - era * 400
  let mp := (m + 9) % 12
  let doy := (153 * mp + 2) / 5 + d - 1
  let doe := 365 * yoe + yoe / 4 - yoe / 100 + doy
  era * 146097 + doe - 719468

/-- Epoch milliseconds of a (year, month 1..12, day, h, m, s) field tuple. -/
def fieldsToUtc (y mo d hh mi ss : Int) : Int :=
  daysFromCivil y mo d * 86400000 + hh * 3600000 + mi * 60000 + ss * 1000

/-- Modelled from the spec: ECMAScript `Date.UTC(y, monthIndex, d, hh, mi, ss)`:
years 0..99 are read as 1900+y, and an out-of-range month index rolls over into the
year exactly as in `MakeDay`. -/
def makeUTC (y mi d hh mi2 ss : Int) : Int :=
  let yfull := if 0 ≤ y ∧ y ≤ 99 then y + 1900 else y
  let ym := yfull + mi / 12
  let mn := mi % 12
  fieldsToUtc ym (mn + 1) d hh mi2 ss

/-! ### Timestamp strings -/

/-- Embedding of `isIsoWithTz`: the string ends in `Z`, or in an
`optional-sign HH:MM` offset (`/[+\-]\d{2}:\d{2}$/`). -/
def isIsoWithTz (s : String) : Bool :=
  match s.data.reverse with
  | [] => false
  | c1 :: rest =>
      if c1 = 'Z' then true
      else
        match rest with
        | m1 :: co :: h2 :: h1 :: sgn :: _ =>
            isDigitChar c1 && isDigitChar m1 && decide (co = ':') &&
              isDigitChar h2 && isDigitChar h1 &&
              (decide (sgn = '+') || decide (sgn = '-'))
        | _ => false

/-- Embedding of the naive-datetime regular expression
`^(\d{4})-(\d{2})-(\d{2})T(\d{2}):(\d{2})(?::(\d{2}))?$`; returns the captured
(year, month, day, hour, minute, second-defaulting-to-0) fields. -/
def naiveParse (cs : List Char) : Option (Int × Int × Int × Int × Int × Int) :=
  match cs with
  | [y1, y2, y3, y4, s1, a1, a2, s2, b1, b2, t1, c1, c2, u1, d1, d2] =>
      if s1 = '-' ∧ s2 = '-' ∧ t1 = 'T' ∧ u1 = ':' then
        (parse4 y1 y2 y3 y4).bind fun y =>
        (parse2 a1 a2).bind fun mo =>
        (parse2 b1 b2).bind fun d =>
        (parse2 c1 c2).bind fun hh =>
        (parse2 d1 d2).map fun mi => (y, mo, d, hh, mi, 0)
      else none
  | [y1, y2, y3, y4, s1, a1, a2, s2, b1, b2, t1, c1, c2, u1, d1, d2, u2, e1, e2] =>
      if s1 = '-' ∧ s2 = '-' ∧ t1 = 'T' ∧ u1 = ':' ∧ u2 = ':' then
        (parse4 y1 y2 y3 y4).bind fun y =>
        (parse2 a1 a2).bind fun mo =>
        (parse2 b1 b2).bind fun d =>
        (parse2 c1 c2).bind fun hh =>
        (parse2 d1 d2).bind fun mi =>
        (parse2 e1 e2).map fun ss => (y, mo, d, hh, mi, ss)
      else none
  | _ => none

/-- Split a trailing `Z` or `sign HH:MM` zone designator off a character list,
returning the remaining body and the offset in minutes. -/
def tzSplit (cs : List Char) : Option (List Char × Int) :=
  match cs.reverse with
  | [] => none
  | c1 :: rest =>
      if c1 = 'Z' then some (rest.reverse, 0)
      else
        match rest with
        | m1 :: co :: h2 :: h1 :: sgn :: rest2 =>
            if co = ':' then
              (parse2 h1 h2).bind fun hh =>
              (parse2 m1 c1).bind fun mm =>
              if sgn = '+' then some (rest2.reverse, hh * 60 + mm)
              else if sgn = '-' then some (rest2.reverse, -(hh * 60 + mm))
              else none
            else none
        | _ => none

/-- Modelled from the spec: ECMAScript `Date.parse` restricted to the
offset/zone-qualified Date Time String Format shapes the scheduler emits and
recognises: a `YYYY-MM-DDTHH:MM[:SS]` body followed by `Z` or `±HH:MM`, with
in-range fields (months 01..12, days 01..31, time below 24:00:00). Other
implementation-defined inputs are conservatively rejected. No 1900-year quirk
applies on this path. -/
def dateParseTz (s : String) : Option Int :=
  (tzSplit s.data).bind fun bo =>
  (naiveParse bo.1).bind fun f =>
  match f with
  | (y, mo, d, hh, mi, ss) =>
      if 1 ≤ mo ∧ mo ≤ 12 ∧ 1 ≤ d ∧ d ≤ 31 ∧ hh ≤ 23 ∧ mi ≤ 59 ∧ ss ≤ 59 then
        some (fieldsToUtc y mo d hh mi ss - bo.2 * 60000)
      else none

/-- Embedding of `parseIsoInFixedOffset`. -/
def parseIsoInFixedOffset (iso : String) (offsetMinutes : Int) : Except String Int :=
  if isIsoWithTz iso then
    match dateParseTz iso with
    | some ms => .ok ms
    | none => .error ("invalid iso: " ++ iso)
  else
    match naiveParse iso.data with
    | some (y, mo, d, hh, mi, ss) =>
        .ok (makeUTC y (mo - 1) d hh mi ss - offsetMinutes * 60000)
    | none => .error ("invalid naive iso: " ++ iso)

/-- Structural model of `String.prototype.split` with a single-character separator. -/
def splitOnChar (c : Char) : List Char → List (List Char)
  | [] => [[]]
  | x :: t =>
      let r := splitOnChar c t
      if x = c then [] :: r
      else
        match r with
        | h :: t2 => (x :: h) :: t2
        | [] => [[x]]

/-- Embedding of `parseYmd`: split on `-` and convert the first three pieces. -/
def parseYmd (ymd : String) : Except String (Int × Int × Int) :=
  match splitOnChar '-' ymd.data with
  | ys :: ms :: ds :: _ =>
      match parseNatStr (String.mk ys), parseNatStr (String.mk ms), parseNatStr (String.mk ds) with
      | some y, some m, some d => .ok ((y : Int), (m : Int), (d : Int))
      | _, _, _ => .error ("invalid start_date: " ++ ymd)
  | _ => .error ("invalid start_date: " ++ ymd)

/-- Embedding of `localMidnightUtcMs`. -/
def localMidnightUtcMs (startYmd : String) (offsetMinutes : Int) : Except String Int :=
  (parseYmd startYmd).map fun t => makeUTC t.1 (t.2.1 - 1) t.2.2 0 0 0 - offsetMinutes * 60000

/-- Embedding of `formatOffset`. -/
def formatOffset (minutes : Int) : String :=
  let sign := if 0 ≤ minutes then "+" else "-"
  let ab := minutes.natAbs
  let hh := ab / 60
  let mm := ab % 60
  sign ++ padStart (natRepr hh) 2 '0' ++ ":" ++ padStart (natRepr mm) 2 '0'

/-- Embedding of `toIsoInFixedOffset`: render an instant in a fixed offset as a local
ISO-8601 string with explicit offset suffix. -/
def toIsoInFixedOffset (utcMs offsetMinutes : Int) : String :=
  let localMs := utcMs + offsetMinutes * 60000
  let day := localMs / 86400000
  let tod := localMs % 86400000
  let ymd := civilFromDays day
  intRepr ymd.1 ++ "-" ++ pad2 ymd.2.1 ++ "-" ++ pad2 ymd.2.2 ++ "T" ++
    pad2 (tod / 3600000) ++ ":" ++ pad2 (tod % 3600000 / 60000) ++ ":" ++
    pad2 (tod % 60000 / 1000) ++ formatOffset offsetMinutes

/-! ### Data model -/

/-- Embedding of the `Order` input record; the nullable fields become `Option`. -/
structure Order where
  order_id : String
  patient_id : String
  tz_offset_minutes : Int
  start_datetime : String
  end_datetime : Option String
  frequency_per_day : Int
  window_minutes : Int
  do_not_overlap_group : Option String
  priority : Int
deriving Repr, DecidableEq

/-- Embedding of the `ScheduledDose` candidate record. -/
structure ScheduledDose where
  orderId : String
  patientId : String
  group : Option String
  priority : Int
  utcMs : Int
  tzOffset : Int
  windowMs : Int
deriving Repr, DecidableEq

/-- Embedding of the `DoseEvent` output record; the literal status type becomes a
string field. -/
structure DoseEvent where
  event_id : String
  order_id : String
  scheduled_time : String
  status : String
deriving Repr, DecidableEq

/-- Input record of `generateDoseEvents`. -/
structure GenInput where
  start_date : String
  days : Int
  orders : List Order
deriving Repr, DecidableEq

/-- Embedding of `validateOrder`; the two `Number.isInteger` checks hold by typing in
the `Int` embedding and the remaining range checks are kept verbatim. -/
def validateOrder (o : Order) : Except String Unit :=
  if o.order_id = "" then .error "order_id required"
  else if o.patient_id = "" then .error "patient_id required"
  else if o.frequency_per_day < 1 ∨ 6 < o.frequency_per_day then
    .error "frequency_per_day must be 1..6"
  else if o.priority < 1 ∨ 5 < o.priority then .error "priority must be 1..5"
  else if o.window_minutes < 0 then .error "window_minutes must be non-negative int"
  else .ok ()

/-- Sequential validation loop of `generateDoseEvents`, surfacing the first failure. -/
def validateOrders : List Order → Except String Unit
  | [] => .ok ()
  | o :: rest =>
      match validateOrder o with
      | .error e => .error e
      | .ok _ => validateOrders rest

/-- Embedding of `Math.round(num / den)` on the exact rational value `num / den`
(`den` positive): round half up, `⌊num / den + 1 / 2⌋ = ⌊(2 num + den) / (2 den)⌋`.
The source computes `i * (1440 / freq)` in floating point, which is exact for every
validated frequency (1..6 all divide 1440), so the exact rational rounding is the
faithful embedding on all validated orders. -/
def jsRound (num den : Int) : Int :=
  (2 * num + den) / (2 * den)

/-- Deduplication key used by `generateScheduledTimes`. -/
def dedupKey (d : ScheduledDose) : String :=
  d.orderId ++ "|" ++ intRepr d.utcMs

/-- First-occurrence-wins key deduplication, as the `seen`-set filter in the source. -/
def dedupGo (seen : List String) : List ScheduledDose → List ScheduledDose
  | [] => []
  | d :: rest =>
      if dedupKey d ∈ seen then dedupGo seen rest
      else d :: dedupGo (dedupKey d :: seen) rest

/-- Embedding of `generateScheduledTimes`: enumerate the daily 08:00-anchored template
over `days + 1` cycles, clip to the effective window and deduplicate by instant. -/
def generateScheduledTimes (startDate : String) (days : Int) (o : Order) :
    Except String (List ScheduledDose) :=
  match localMidnightUtcMs startDate o.tz_offset_minutes with
  | .error e => .error e
  | .ok globalStartUtc =>
  match parseIsoInFixedOffset o.start_datetime o.tz_offset_minutes with
  | .error e => .error e
  | .ok orderStartUtc =>
  match (match o.end_datetime with
         | none => Except.ok Option.none
         | some e => (parseIsoInFixedOffset e o.tz_offset_minutes).map Option.some) with
  | .error e => .error e
  | .ok endOpt =>
      let globalEndUtc := globalStartUtc + days * 86400000
      let effectiveStart := max globalStartUtc orderStartUtc
      let effectiveEnd :=
        match endOpt with
        | none => globalEndUtc
        | some e => min globalEndUtc e
      if effectiveEnd < effectiveStart then .ok []
      else
        let firstCycleStart := globalStartUtc + 8 * 60 * 60000
        let out := (List.range (days + 1).toNat).flatMap fun cycleIdx =>
          (List.range o.frequency_per_day.toNat).filterMap fun i =>
            let minutesFromCycleStart := jsRound ((i : Int) * 1440) o.frequency_per_day
            let tUtc := firstCycleStart + (cycleIdx : Int) * 86400000 +
              minutesFromCycleStart * 60000
            if effectiveStart ≤ tUtc ∧ tUtc ≤ effectiveEnd then
              some { orderId := o.order_id, patientId := o.patient_id,
                     group := o.do_not_overlap_group, priority := o.priority,
                     utcMs := tUtc, tzOffset := o.tz_offset_minutes,
                     windowMs := o.window_minutes * 60000 }
            else none
        .ok (dedupGo [] out)

/-- Effective end instant used by `generateScheduledTimes`: the horizon end
`gs + days` days, clipped by the parsed order end when one is present. -/
def effectiveEndOf (gs days : Int) (endOpt : Option Int) : Int :=
  match endOpt with
  | none => gs + days * 86400000
  | some e => min (gs + days * 86400000) e

/-- The pre-deduplication candidate list built by `generateScheduledTimes`, with the
parsed instants `gs` (local midnight of the start date), `os` (order start) and the
effective end `effE` made explicit. -/
def candidateDoses (days : Int) (o : Order) (gs os effE : Int) : List ScheduledDose :=
  (List.range (days + 1).toNat).flatMap fun cycleIdx =>
    (List.range o.frequency_per_day.toNat).filterMap fun i =>
      let tUtc := gs + 8 * 60 * 60000 + (cycleIdx : Int) * 86400000 +
        jsRound ((i : Int) * 1440) o.frequency_per_day * 60000
      if max gs os ≤ tUtc ∧ tUtc ≤ effE then
        some { orderId := o.order_id, patientId := o.patient_id,
               group := o.do_not_overlap_group, priority := o.priority,
               utcMs := tUtc, tzOffset := o.tz_offset_minutes,
               windowMs := o.window_minutes * 60000 }
      else none

/-- Sequential per-order generation loop of `generateDoseEvents`. -/
def genAll (startDate : String) (days : Int) : List Order → Except String (List ScheduledDose)
  | [] => .ok []
  | o :: rest =>
      match generateScheduledTimes startDate days o with
      | .error e => .error e
      | .ok ds =>
          match genAll startDate days rest with
          | .error e => .error e
          | .ok rest2 => .ok (ds ++ rest2)

/-! ### Conflict resolution -/

/-- Insert into a sorted list, after any earlier element `y` with `le y x` and before
the first `y` with `le x y`; building block of the stable sort. -/
def insertLe (le : α → α → Bool) (x : α) : List α → List α
  | [] => [x]
  | y :: t => if le x y then x :: y :: t else y :: insertLe le x t

/-- Stable sort by a boolean total preorder; models the (stable) ES2019
`Array.prototype.sort`, whose result on a consistent comparator is the unique stable
ordering. -/
def sortBy (le : α → α → Bool) : List α → List α
  | [] => []
  | x :: t => insertLe le x (sortBy le t)

/-- JS falsiness of the group field: `null` (here `none`) or the empty string. -/
def groupFalsy : Option String → Bool
  | none => true
  | some s => decide (s = "")

/-- Grouping key `patientId::group` used by `resolveOverlaps`. -/
def doseKey (d : ScheduledDose) : String :=
  d.patientId ++ "::" ++ (match d.group with | some g => g | none => "")

/-- Boolean order relation equivalent to `comparator(a, b) ≤ 0` for the in-group sort:
priority descending, then order id ascending, then instant ascending. -/
def doseLe (a b : ScheduledDose) : Bool :=
  decide (b.priority < a.priority) ||
    (decide (a.priority = b.priority) &&
      (decide (a.orderId < b.orderId) ||
        (decide (a.orderId = b.orderId) && decide (a.utcMs ≤ b.utcMs))))

/-- Whole-minute bucket of a dose (`Math.floor(utcMs / MS_PER_MIN)`). -/
def bucketOf (d : ScheduledDose) : Int :=
  d.utcMs / 60000

/-- Embedding of the ±60-bucket neighbourhood conflict scan of `resolveOverlaps`. -/
def hasConflict (kbm : List (Int × ScheduledDose)) (d : ScheduledDose) : Bool :=
  (List.range 121).any fun j =>
    match List.lookup (bucketOf d - 60 + (j : Int)) kbm with
    | some other => decide ((d.utcMs - other.utcMs).natAbs < 3600000)
    | none => false

/-- One step of the greedy acceptance scan: state is (`keptByMinute`, accepted list). -/
def scanStep (st : List (Int × ScheduledDose) × List ScheduledDose) (d : ScheduledDose) :
    List (Int × ScheduledDose) × List ScheduledDose :=
  if hasConflict st.1 d then st else ((bucketOf d, d) :: st.1, st.2 ++ [d])

/-- State of the greedy scan after processing a prefix of the sorted group. -/
def scanState (gs : List ScheduledDose) : List (Int × ScheduledDose) × List ScheduledDose :=
  gs.foldl scanStep ([], [])

/-- Greedy acceptance scan over one sorted group. -/
def scanGroup (gs : List ScheduledDose) : List ScheduledDose :=
  (scanState gs).2

/-- Append a dose to its key's bucket in an insertion-ordered association list,
as `Map.get`/`push`/`Map.set` do in the source. -/
def insertGrouped (acc : List (String × List ScheduledDose)) (k : String)
    (d : ScheduledDose) : List (String × List ScheduledDose) :=
  match acc with
  | [] => [(k, [d])]
  | (k2, l) :: rest =>
      if k2 = k then (k2, l ++ [d]) :: rest else (k2, l) :: insertGrouped rest k d

/-- Insertion-ordered grouping of the non-passthrough doses by `doseKey`. -/
def groupByKey (ds : List ScheduledDose) : List (String × List ScheduledDose) :=
  ds.foldl (fun acc d => insertGrouped acc (doseKey d) d) []

/-- Embedding of `resolveOverlaps`: falsy-group doses pass through; each group is
sorted by `doseLe` and greedily scanned with the 60-minute exclusion window. -/
def resolveOverlaps (doses : List ScheduledDose) : List ScheduledDose :=
  let passthrough := doses.filter fun d => groupFalsy d.group
  let grouped := groupByKey (doses.filter fun d => !groupFalsy d.group)
  passthrough ++ grouped.flatMap fun kg => scanGroup (sortBy doseLe kg.2)

/-! ### Event assembly -/

/-- Modelled from the spec: the `node:crypto` SHA-256 hex digest is outside the
repository; it is modelled as a deterministic content hash of the input string,
which is the property (stable identifier derivation) the design relies on. -/
def sha256Hex (input : String) : String :=
  natRepr (input.data.foldl (fun a c => (a * 131 + c.toNat) % 18446744073709551616) 7)

/-- Boolean order relation equivalent to `comparator(a, b) ≤ 0` for the final sort:
instant ascending, then order id ascending. -/
def finalLe (a b : ScheduledDose) : Bool :=
  decide (a.utcMs < b.utcMs) || (decide (a.utcMs = b.utcMs) && decide (a.orderId ≤ b.orderId))

/-- Event construction of the final `map` in `generateDoseEvents`. -/
def mkEvent (d : ScheduledDose) : DoseEvent :=
  let scheduled := toIsoInFixedOffset d.utcMs d.tzOffset
  { event_id := sha256Hex (d.orderId ++ "|" ++ scheduled)
    order_id := d.orderId
    scheduled_time := scheduled
    status := "SCHEDULED" }

/-- Embedding of the exported `generateDoseEvents` entry point. -/
def generateDoseEvents (input : GenInput) : Except String (List DoseEvent) :=
  if input.days < 1 ∨ 30 < input.days then .error "days must be 1..30"
  else
    match validateOrders input.orders with
    | .error e => .error e
    | .ok _ =>
        match genAll input.start_date input.days input.orders with
        | .error e => .error e
        | .ok allDoses =>
            let winners := resolveOverlaps allDoses
            .ok ((sortBy finalLe winners).map mkEvent)

/-! ## Theorems -/

/-! ### Calendar round trip -/

theorem civil_level1 (doe : Int) (h1 : 0 ≤ doe) (h2 : doe < 146097) :
    0 ≤ (4 * doe + 3) / 146097 ∧ (4 * doe + 3) / 146097 ≤ 3 ∧
    (4 * doe + 3) % 146097 / 4 = doe - 36524 * ((4 * doe + 3) / 146097) ∧
    0 ≤ (4 * doe + 3) % 146097 / 4 ∧ (4 * doe + 3) % 146097 / 4 ≤ 36524 := by
  omega

theorem civil_level2 (doc : Int) (h1 : 0 ≤ doc) (h2 : doc ≤ 36524) :
    0 ≤ (4 * doc + 3) / 1461 ∧ (4 * doc + 3) / 1461 ≤ 99 ∧
    (4 * doc + 3) % 1461 / 4 =
      doc - (365 * ((4 * doc + 3) / 1461) + ((4 * doc + 3) / 1461) / 4) ∧
    0 ≤ (4 * doc + 3) % 1461 / 4 ∧ (4 * doc + 3) % 1461 / 4 ≤ 365 := by
  omega

theorem civil_level3 (doy : Int) (h1 : 0 ≤ doy) (h2 : doy ≤ 365) :
    0 ≤ (5 * doy + 2) / 153 ∧ (5 * doy + 2) / 153 ≤ 11 ∧
    (153 * ((5 * doy + 2) / 153) + 2) / 5 ≤ doy ∧
    doy - (153 * ((5 * doy + 2) / 153) + 2) / 5 ≤ 30 := by
  omega

set_option maxHeartbeats 1000000 in
theorem civil_core (era doe c doc yoc doy mp dd mm : Int)
    (hdoe1 : 0 ≤ doe) (hdoe2 : doe < 146097)
    (hc1 : 0 ≤ c) (hc2 : c ≤ 3)
    (hdoc : doc = doe - 36524 * c) (hdoc1 : 0 ≤ doc) (hdoc2 : doc ≤ 36524)
    (hyoc1 : 0 ≤ yoc) (hyoc2 : yoc ≤ 99)
    (hdoy : doy = doc - (365 * yoc + yoc / 4)) (hdoy1 : 0 ≤ doy) (hdoy2 : doy ≤ 365)
    (hmp1 : 0 ≤ mp) (hmp2 : mp ≤ 11)
    (hmp3 : (153 * mp + 2) / 5 ≤ doy) (hmp4 : doy - (153 * mp + 2) / 5 ≤ 30)
    (hdd : dd = doy - (153 * mp + 2) / 5 + 1)
    (hmm : mm = if mp < 10 then mp + 3 else mp - 9) :
    daysFromCivil (if mm ≤ 2 then 400 * era + 100 * c + yoc + 1 else 400 * era + 100 * c + yoc)
        mm dd = 146097 * era + doe - 719468 ∧
    1 ≤ mm ∧ mm ≤ 12 ∧ 1 ≤ dd ∧ dd ≤ 31 := by
  have hyp2 : (400 * era + 100 * c + yoc) / 400 = era := by omega
  have hyp3 : (100 * c + yoc) / 4 = 25 * c + yoc / 4 := by omega
  have hyp4 : (100 * c + yoc) / 100 = c := by omega
  have e1 : 400 * era + 100 * c + yoc - era * 400 = 100 * c + yoc := by ring
  by_cases hmp10 : mp < 10
  · rw [if_pos hmp10] at hmm
    subst hmm
    have hmpeq : (mp + 3 + 9) % 12 = mp := by omega
    simp only [daysFromCivil]
    split_ifs with h
    · omega
    · rw [hyp2, e1, hyp3, hyp4, hmpeq]
      omega
  · rw [if_neg hmp10] at hmm
    subst hmm
    have hmpeq : (mp - 9 + 9) % 12 = mp := by omega
    simp only [daysFromCivil]
    split_ifs with h
    · have e0 : 400 * era + 100 * c + yoc + 1 - 1 = 400 * era + 100 * c + yoc := by ring
      rw [e0, hyp2, e1, hyp3, hyp4, hmpeq]
      omega
    · omega

/-- The calendar conversions invert each other, and the extracted month and day are
in range. -/
theorem daysFromCivil_civilFromDays (z : Int) :
    daysFromCivil (civilFromDays z).1 (civilFromDays z).2.1 (civilFromDays z).2.2 = z ∧
    1 ≤ (civilFromDays z).2.1 ∧ (civilFromDays z).2.1 ≤ 12 ∧
    1 ≤ (civilFromDays z).2.2 ∧ (civilFromDays z).2.2 ≤ 31 := by
  have hdoe1 : 0 ≤ (z + 719468) % 146097 := Int.emod_nonneg _ (by norm_num)
  have hdoe2 : (z + 719468) % 146097 < 146097 := Int.emod_lt_of_pos _ (by norm_num)
  obtain ⟨a1, a2, a3, a4, a5⟩ := civil_level1 _ hdoe1 hdoe2
  obtain ⟨b1, b2, b3, b4, b5⟩ := civil_level2 _ a4 a5
  obtain ⟨c1, c2, c3, c4⟩ := civil_level3 _ b4 b5
  have hz : 146097 * ((z + 719468) / 146097) + (z + 719468) % 146097 = z + 719468 :=
    Int.ediv_add_emod _ _
  have core := civil_core ((z + 719468) / 146097) ((z + 719468) % 146097)
    ((4 * ((z + 719468) % 146097) + 3) / 146097)
    ((4 * ((z + 719468) % 146097) + 3) % 146097 / 4)
    ((4 * ((4 * ((z + 719468) % 146097) + 3) % 146097 / 4) + 3) / 1461)
    ((4 * ((4 * ((z + 719468) % 146097) + 3) % 146097 / 4) + 3) % 1461 / 4)
    ((5 * ((4 * ((4 * ((z + 719468) % 146097) + 3) % 146097 / 4) + 3) % 1461 / 4) + 2) / 153)
    ((4 * ((4 * ((z + 719468) % 146097) + 3) % 146097 / 4) + 3) % 1461 / 4 -
      (153 * ((5 * ((4 * ((4 * ((z + 719468) % 146097) + 3) % 146097 / 4) + 3) % 1461 / 4) + 2) /
        153) + 2) / 5 + 1)
    (if (5 * ((4 * ((4 * ((z + 719468) % 146097) + 3) % 146097 / 4) + 3) % 1461 / 4) + 2) / 153 <
        10 then
      (5 * ((4 * ((4 * ((z + 719468) % 146097) + 3) % 146097 / 4) + 3) % 1461 / 4) + 2) / 153 + 3
     else
      (5 * ((4 * ((4 * ((z + 719468) % 146097) + 3) % 146097 / 4) + 3) % 1461 / 4) + 2) / 153 - 9)
    hdoe1 hdoe2 a1 a2 a3 a4 a5 b1 b2 b3 b4 b5 c1 c2 c3 c4 rfl rfl
  exact ⟨core.1.trans (by omega), core.2.1, core.2.2.1, core.2.2.2.1, core.2.2.2.2⟩

/-! ### Decimal representation facts -/

theorem jsDigits_eq_digits : ∀ fuel n, n ≤ fuel → jsDigits fuel n = Nat.digits 10 n := by
  intro fuel
  induction fuel with
  | zero =>
      intro n hn
      have : n = 0 := Nat.le_zero.mp hn
      subst this
      simp [jsDigits]
  | succ k ih =>
      intro n hn
      by_cases h0 : n = 0
      · subst h0; simp [jsDigits]
      · have h1 : 0 < n := Nat.pos_of_ne_zero h0
        have h2 : n / 10 ≤ k := by
          have := Nat.div_lt_self h1 (by norm_num : 1 < 10)
          omega
        rw [jsDigits, if_neg h0, ih _ h2, Nat.digits_def' (by norm_num : 1 < 10) h1]

theorem natRepr_data (n : Nat) (h : n ≠ 0) :
    (natRepr n).data = ((Nat.digits 10 n).reverse).map Nat.digitChar := by
  rw [natRepr, if_neg h, jsDigits_eq_digits n n le_rfl]

theorem foldl_reverse_ofDigits :
    ∀ (l : List Nat) (acc : Nat),
      List.foldl (fun a d => a * 10 + d) acc l.reverse =
        acc * 10 ^ l.length + Nat.ofDigits 10 l := by
  intro l
  induction l with
  | nil => intro acc; simp [Nat.ofDigits]
  | cons d t ih =>
      intro acc
      simp only [List.reverse_cons, List.foldl_append, List.foldl_cons, List.foldl_nil, ih,
        Nat.ofDigits_cons, List.length_cons]
      ring

theorem digitChar_toNat (d : Nat) (h : d < 10) : (Nat.digitChar d).toNat - 48 = d := by
  interval_cases d <;> decide

theorem digitChar_isDigit (d : Nat) (h : d < 10) : isDigitChar (Nat.digitChar d) = true := by
  interval_cases d <;> decide

theorem charsToNat_digits (l : List Nat) (hl : ∀ d ∈ l, d < 10) :
    charsToNat ((l.map Nat.digitChar).reverse) = Nat.ofDigits 10 l := by
  rw [charsToNat, ← List.map_reverse, List.foldl_map]
  have key : ∀ (m : List Nat) (acc : Nat), (∀ d ∈ m, d < 10) →
      List.foldl (fun x y => x * 10 + ((Nat.digitChar y).toNat - 48)) acc m =
        List.foldl (fun a d => a * 10 + d) acc m := by
    intro m
    induction m with
    | nil => intro acc _; rfl
    | cons d t ihm =>
        intro acc hm
        have hd : d < 10 := hm d (List.mem_cons_self d t)
        have ht : ∀ x ∈ t, x < 10 := fun x hx => hm x (List.mem_cons_of_mem _ hx)
        simp only [List.foldl_cons]
        rw [digitChar_toNat d hd, ihm _ ht]
  rw [key l.reverse 0 (fun d hd => hl d (List.mem_reverse.mp hd)),
    foldl_reverse_ofDigits l 0]
  simp

theorem natRepr_all_digits (n : Nat) : (natRepr n).data.all isDigitChar = true := by
  by_cases h : n = 0
  · subst h; decide
  · rw [natRepr_data n h, List.all_eq_true]
    intro c hc
    rw [List.mem_map] at hc
    obtain ⟨d, hd, rfl⟩ := hc
    exact digitChar_isDigit d (Nat.digits_lt_base (by norm_num) (List.mem_reverse.mp hd))

theorem natRepr_ne_nil (n : Nat) : (natRepr n).data ≠ [] := by
  by_cases h : n = 0
  · subst h; decide
  · rw [natRepr_data n h]
    simp only [ne_eq, List.map_eq_nil_iff, List.reverse_eq_nil_iff]
    exact Nat.digits_ne_nil_iff_ne_zero.mpr h

theorem parseNatStr_natRepr (n : Nat) : parseNatStr (natRepr n) = some n := by
  have h1 : decide ((natRepr n).data ≠ []) = true := decide_eq_true (natRepr_ne_nil n)
  have h2 := natRepr_all_digits n
  have hcond : (decide ((natRepr n).data ≠ []) && (natRepr n).data.all isDigitChar) = true := by
    rw [h1, h2]
    rfl
  rw [parseNatStr, if_pos hcond]
  by_cases h : n = 0
  · subst h; decide
  · rw [natRepr_data n h, List.map_reverse,
      charsToNat_digits _ (fun d hd => Nat.digits_lt_base (by norm_num) hd),
      Nat.ofDigits_digits]

theorem natRepr_inj (a b : Nat) (h : natRepr a = natRepr b) : a = b := by
  have := parseNatStr_natRepr a
  rw [h, parseNatStr_natRepr b] at this
  exact (Option.some_inj.mp this).symm

theorem natRepr_head_digit (n : Nat) (c : Char) (t : List Char)
    (h : (natRepr n).data = c :: t) : isDigitChar c = true := by
  have := natRepr_all_digits n
  rw [h, List.all_cons, Bool.and_eq_true] at this
  exact this.1

theorem intRepr_inj (a b : Int) (h : intRepr a = intRepr b) : a = b := by
  rw [intRepr, intRepr] at h
  by_cases ha : a < 0 <;> by_cases hb : b < 0
  · rw [if_pos ha, if_pos hb] at h
    have hd : ('-' :: (natRepr a.natAbs).data) = ('-' :: (natRepr b.natAbs).data) := by
      have := congrArg String.data h
      simpa using this
    have : natRepr a.natAbs = natRepr b.natAbs := by
      apply String.ext
      exact List.cons.inj hd |>.2
    have := natRepr_inj _ _ this
    omega
  · rw [if_pos ha, if_neg hb] at h
    exfalso
    obtain ⟨c, t, hct⟩ : ∃ c t, (natRepr b.toNat).data = c :: t := by
      cases hcase : (natRepr b.toNat).data with
      | nil => exact absurd hcase (natRepr_ne_nil _)
      | cons c t => exact ⟨c, t, rfl⟩
    have hd := congrArg String.data h
    simp only [String.data_append, hct] at hd
    have hc : '-' = c := by
      have hx : ('-' : Char) :: (natRepr a.natAbs).data = c :: t := by simpa using hd
      exact (List.cons.inj hx).1
    have hdig := natRepr_head_digit b.toNat c t hct
    rw [← hc] at hdig
    simp [isDigitChar] at hdig
  · rw [if_neg ha, if_pos hb] at h
    exfalso
    obtain ⟨c, t, hct⟩ : ∃ c t, (natRepr a.toNat).data = c :: t := by
      cases hcase : (natRepr a.toNat).data with
      | nil => exact absurd hcase (natRepr_ne_nil _)
      | cons c t => exact ⟨c, t, rfl⟩
    have hd := congrArg String.data h
    simp only [String.data_append, hct] at hd
    have hc : c = '-' := by
      have hx : c :: t = ('-' : Char) :: (natRepr b.natAbs).data := by simpa using hd
      exact (List.cons.inj hx).1
    have hdig := natRepr_head_digit a.toNat c t hct
    rw [hc] at hdig
    simp [isDigitChar] at hdig
  · rw [if_neg ha, if_neg hb] at h
    have := natRepr_inj _ _ h
    omega

theorem digits4 (y : Nat) (h1 : 1000 ≤ y) (h2 : y ≤ 9999) :
    Nat.digits 10 y = [y % 10, y / 10 % 10, y / 100 % 10, y / 1000] := by
  have e1 : Nat.digits 10 y = y % 10 :: Nat.digits 10 (y / 10) :=
    Nat.digits_def' (by norm_num) (by omega)
  have hy10 : 100 ≤ y / 10 := by omega
  have e2 : Nat.digits 10 (y / 10) = y / 10 % 10 :: Nat.digits 10 (y / 10 / 10) :=
    Nat.digits_def' (by norm_num) (by omega)
  have hdd : y / 10 / 10 = y / 100 := by omega
  have hy100 : 10 ≤ y / 100 := by omega
  have e3 : Nat.digits 10 (y / 100) = y / 100 % 10 :: Nat.digits 10 (y / 100 / 10) :=
    Nat.digits_def' (by norm_num) (by omega)
  have hddd : y / 100 / 10 = y / 1000 := by omega
  have hy1000a : 1 ≤ y / 1000 := by omega
  have hy1000b : y / 1000 ≤ 9 := by omega
  have e4 : Nat.digits 10 (y / 1000) = y / 1000 % 10 :: Nat.digits 10 (y / 1000 / 10) :=
    Nat.digits_def' (by norm_num) (by omega)
  have h0 : y / 1000 / 10 = 0 := by omega
  have hm : y / 1000 % 10 = y / 1000 := Nat.mod_eq_of_lt (by omega)
  rw [e1, e2, hdd, e3, hddd, e4, h0, hm]
  simp

theorem natRepr4_data (y : Nat) (h1 : 1000 ≤ y) (h2 : y ≤ 9999) :
    (natRepr y).data = [Nat.digitChar (y / 1000), Nat.digitChar (y / 100 % 10),
      Nat.digitChar (y / 10 % 10), Nat.digitChar (y % 10)] := by
  rw [natRepr_data y (by omega), digits4 y h1 h2]
  rfl

theorem pads2 : ∀ m : Nat, m < 100 →
    (padStart (natRepr m) 2 '0').data = [Nat.digitChar (m / 10), Nat.digitChar (m % 10)] := by
  decide

theorem pad2_data (n : Int) (h1 : 0 ≤ n) (h2 : n < 100) :
    (pad2 n).data = [Nat.digitChar (n.toNat / 10), Nat.digitChar (n.toNat % 10)] := by
  rw [pad2, intRepr, if_neg (by omega)]
  exact pads2 n.toNat (by omega)

theorem digitVal_digitChar (d : Nat) (h : d < 10) : digitVal (Nat.digitChar d) = (d : Int) := by
  interval_cases d <;> decide

theorem digitChar_ne_special (d : Nat) (h : d < 10) :
    Nat.digitChar d ≠ 'Z' ∧ Nat.digitChar d ≠ '+' ∧ Nat.digitChar d ≠ '-' ∧
      Nat.digitChar d ≠ ':' ∧ Nat.digitChar d ≠ 'T' := by
  interval_cases d <;> decide

theorem parse2_digitChar (x : Nat) (h : x < 100) :
    parse2 (Nat.digitChar (x / 10)) (Nat.digitChar (x % 10)) = some (x : Int) := by
  have h1 : x / 10 < 10 := by omega
  have h2 : x % 10 < 10 := by omega
  rw [parse2, digitChar_isDigit _ h1, digitChar_isDigit _ h2]
  have htt : (true && true) = true := rfl
  rw [if_pos htt, digitVal_digitChar _ h1, digitVal_digitChar _ h2]
  congr 1
  push_cast
  omega

theorem parse4_digitChar (x : Nat) (h : x < 10000) :
    parse4 (Nat.digitChar (x / 1000)) (Nat.digitChar (x / 100 % 10))
      (Nat.digitChar (x / 10 % 10)) (Nat.digitChar (x % 10)) = some (x : Int) := by
  have h1 : x / 1000 < 10 := by omega
  have h2 : x / 100 % 10 < 10 := by omega
  have h3 : x / 10 % 10 < 10 := by omega
  have h4 : x % 10 < 10 := by omega
  rw [parse4, digitChar_isDigit _ h1, digitChar_isDigit _ h2, digitChar_isDigit _ h3,
    digitChar_isDigit _ h4]
  have htt : (true && true && true && true) = true := rfl
  rw [if_pos htt, digitVal_digitChar _ h1, digitVal_digitChar _ h2, digitVal_digitChar _ h3,
    digitVal_digitChar _ h4]
  congr 1
  push_cast
  omega

theorem formatOffset_data (o : Int) (h : o.natAbs < 6000) :
    (formatOffset o).data =
      (if 0 ≤ o then '+' else '-') ::
        Nat.digitChar (o.natAbs / 60 / 10) :: Nat.digitChar (o.natAbs / 60 % 10) ::
        ':' :: Nat.digitChar (o.natAbs % 60 / 10) :: Nat.digitChar (o.natAbs % 60 % 10) :: [] := by
  have hh : o.natAbs / 60 < 100 := by omega
  have hm : o.natAbs % 60 < 100 := by omega
  rw [formatOffset]
  by_cases hse : 0 ≤ o
  · rw [if_pos hse, if_pos hse]
    simp only [String.data_append, pads2 _ hh, pads2 _ hm]
    rfl
  · rw [if_neg hse, if_neg hse]
    simp only [String.data_append, pads2 _ hh, pads2 _ hm]
    rfl

theorem toIso_data (t o : Int) (ho : o.natAbs < 6000)
    (hy1 : 1000 ≤ (civilFromDays ((t + o * 60000) / 86400000)).1)
    (hy2 : (civilFromDays ((t + o * 60000) / 86400000)).1 ≤ 9999) :
    (toIsoInFixedOffset t o).data =
      Nat.digitChar ((civilFromDays ((t + o * 60000) / 86400000)).1.toNat / 1000) ::
      Nat.digitChar ((civilFromDays ((t + o * 60000) / 86400000)).1.toNat / 100 % 10) ::
      Nat.digitChar ((civilFromDays ((t + o * 60000) / 86400000)).1.toNat / 10 % 10) ::
      Nat.digitChar ((civilFromDays ((t + o * 60000) / 86400000)).1.toNat % 10) ::
      '-' :: Nat.digitChar ((civilFromDays ((t + o * 60000) / 86400000)).2.1.toNat / 10) ::
      Nat.digitChar ((civilFromDays ((t + o * 60000) / 86400000)).2.1.toNat % 10) ::
      '-' :: Nat.digitChar ((civilFromDays ((t + o * 60000) / 86400000)).2.2.toNat / 10) ::
      Nat.digitChar ((civilFromDays ((t + o * 60000) / 86400000)).2.2.toNat % 10) ::
      'T' :: Nat.digitChar (((t + o * 60000) % 86400000 / 3600000).toNat / 10) ::
      Nat.digitChar (((t + o * 60000) % 86400000 / 3600000).toNat % 10) ::
      ':' :: Nat.digitChar (((t + o * 60000) % 86400000 % 3600000 / 60000).toNat / 10) ::
      Nat.digitChar (((t + o * 60000) % 86400000 % 3600000 / 60000).toNat % 10) ::
      ':' :: Nat.digitChar (((t + o * 60000) % 86400000 % 60000 / 1000).toNat / 10) ::
      Nat.digitChar (((t + o * 60000) % 86400000 % 60000 / 1000).toNat % 10) ::
      (if 0 ≤ o then '+' else '-') ::
      Nat.digitChar (o.natAbs / 60 / 10) :: Nat.digitChar (o.natAbs / 60 % 10) ::
      ':' :: Nat.digitChar (o.natAbs % 60 / 10) :: Nat.digitChar (o.natAbs % 60 % 10) :: [] := by
  have htod0 : 0 ≤ (t + o * 60000) % 86400000 := Int.emod_nonneg _ (by norm_num)
  have htod1 : (t + o * 60000) % 86400000 < 86400000 := Int.emod_lt_of_pos _ (by norm_num)
  obtain ⟨hrt, hmo1, hmo2, hd1, hd2⟩ := daysFromCivil_civilFromDays ((t + o * 60000) / 86400000)
  have hyrepr : intRepr (civilFromDays ((t + o * 60000) / 86400000)).1 =
      natRepr (civilFromDays ((t + o * 60000) / 86400000)).1.toNat := by
    rw [intRepr, if_neg (by omega)]
  rw [toIsoInFixedOffset]
  simp only [String.data_append]
  rw [hyrepr, natRepr4_data _ (by omega) (by omega)]
  rw [pad2_data _ (by omega) (by omega), pad2_data _ (by omega) (by omega),
    pad2_data _ (by omega) (by omega), pad2_data _ (by omega) (by omega),
    pad2_data _ (by omega) (by omega), formatOffset_data o ho]
  rfl

theorem tz_shape_parse (s : String) (Y MO D HH MI SS OH OM : Nat) (sgn : Char) (off : Int)
    (hY1 : 1000 ≤ Y) (hY2 : Y ≤ 9999) (hMO1 : 1 ≤ MO) (hMO2 : MO ≤ 12) (hD1 : 1 ≤ D)
    (hD2 : D ≤ 31) (hHH2 : HH ≤ 23) (hMI2 : MI ≤ 59) (hSS2 : SS ≤ 59) (hOH : OH < 100)
    (hOM : OM < 100)
    (hsgn : (sgn = '+' ∧ off = (OH : Int) * 60 + OM) ∨
      (sgn = '-' ∧ off = -((OH : Int) * 60 + OM)))
    (hdata : s.data =
      [Nat.digitChar (Y / 1000), Nat.digitChar (Y / 100 % 10), Nat.digitChar (Y / 10 % 10),
       Nat.digitChar (Y % 10), '-', Nat.digitChar (MO / 10), Nat.digitChar (MO % 10),
       '-', Nat.digitChar (D / 10), Nat.digitChar (D % 10),
       'T', Nat.digitChar (HH / 10), Nat.digitChar (HH % 10),
       ':', Nat.digitChar (MI / 10), Nat.digitChar (MI % 10),
       ':', Nat.digitChar (SS / 10), Nat.digitChar (SS % 10),
       sgn, Nat.digitChar (OH / 10), Nat.digitChar (OH % 10),
       ':', Nat.digitChar (OM / 10), Nat.digitChar (OM % 10)]) :
    isIsoWithTz s = true ∧
    dateParseTz s =
      some (fieldsToUtc (Y : Int) (MO : Int) (D : Int) (HH : Int) (MI : Int) (SS : Int) -
        off * 60000) := by
  have hneZ := (digitChar_ne_special (OM % 10) (by omega)).1
  have hdig1 := digitChar_isDigit (OM % 10) (by omega)
  have hdig2 := digitChar_isDigit (OM / 10) (by omega)
  have hdig3 := digitChar_isDigit (OH % 10) (by omega)
  have hdig4 := digitChar_isDigit (OH / 10) (by omega)
  have hp4 := parse4_digitChar Y (by omega)
  have hpMO := parse2_digitChar MO (by omega)
  have hpD := parse2_digitChar D (by omega)
  have hpHH := parse2_digitChar HH (by omega)
  have hpMI := parse2_digitChar MI (by omega)
  have hpSS := parse2_digitChar SS (by omega)
  have hpOH := parse2_digitChar OH hOH
  have hpOM := parse2_digitChar OM hOM
  have hifrange : (1 ≤ (MO : Int) ∧ (MO : Int) ≤ 12 ∧ 1 ≤ (D : Int) ∧ (D : Int) ≤ 31 ∧
      (HH : Int) ≤ 23 ∧ (MI : Int) ≤ 59 ∧ (SS : Int) ≤ 59) := by
    refine ⟨by omega, by omega, by omega, by omega, by omega, by omega, by omega⟩
  have hnp : naiveParse
      [Nat.digitChar (Y / 1000), Nat.digitChar (Y / 100 % 10), Nat.digitChar (Y / 10 % 10),
       Nat.digitChar (Y % 10), '-', Nat.digitChar (MO / 10), Nat.digitChar (MO % 10),
       '-', Nat.digitChar (D / 10), Nat.digitChar (D % 10),
       'T', Nat.digitChar (HH / 10), Nat.digitChar (HH % 10),
       ':', Nat.digitChar (MI / 10), Nat.digitChar (MI % 10),
       ':', Nat.digitChar (SS / 10), Nat.digitChar (SS % 10)] =
      some ((Y : Int), (MO : Int), (D : Int), (HH : Int), (MI : Int), (SS : Int)) := by
    rw [naiveParse]
    rw [if_pos ⟨rfl, rfl, rfl, rfl, rfl⟩, hp4, hpMO, hpD, hpHH, hpMI, hpSS]
    rfl
  rcases hsgn with ⟨hse, hoff⟩ | ⟨hse, hoff⟩ <;> subst hse <;> subst hoff
  · have hrev : s.data.reverse =
        [Nat.digitChar (OM % 10), Nat.digitChar (OM / 10), ':',
         Nat.digitChar (OH % 10), Nat.digitChar (OH / 10), '+',
         Nat.digitChar (SS % 10), Nat.digitChar (SS / 10), ':',
         Nat.digitChar (MI % 10), Nat.digitChar (MI / 10), ':',
         Nat.digitChar (HH % 10), Nat.digitChar (HH / 10), 'T',
         Nat.digitChar (D % 10), Nat.digitChar (D / 10), '-',
         Nat.digitChar (MO % 10), Nat.digitChar (MO / 10), '-',
         Nat.digitChar (Y % 10), Nat.digitChar (Y / 10 % 10), Nat.digitChar (Y / 100 % 10),
         Nat.digitChar (Y / 1000)] := by
      rw [hdata]
      rfl
    have hsplit : tzSplit s.data = some
        ([Nat.digitChar (Y / 1000), Nat.digitChar (Y / 100 % 10), Nat.digitChar (Y / 10 % 10),
          Nat.digitChar (Y % 10), '-', Nat.digitChar (MO / 10), Nat.digitChar (MO % 10),
          '-', Nat.digitChar (D / 10), Nat.digitChar (D % 10),
          'T', Nat.digitChar (HH / 10), Nat.digitChar (HH % 10),
          ':', Nat.digitChar (MI / 10), Nat.digitChar (MI % 10),
          ':', Nat.digitChar (SS / 10), Nat.digitChar (SS % 10)],
         ((OH : Int) * 60 + OM)) := by
      rw [tzSplit, hrev]
      simp only []
      rw [if_neg hneZ, hpOH, hpOM]
      simp only [Option.some_bind, if_true]
      rfl
    constructor
    · rw [isIsoWithTz, hrev]
      simp only []
      rw [if_neg hneZ]
      simp [hdig1, hdig2, hdig3, hdig4]
    · rw [dateParseTz, hsplit]
      simp only [Option.some_bind]
      rw [hnp]
      simp only [Option.some_bind]
      rw [if_pos hifrange]
  · have hrev : s.data.reverse =
        [Nat.digitChar (OM % 10), Nat.digitChar (OM / 10), ':',
         Nat.digitChar (OH % 10), Nat.digitChar (OH / 10), '-',
         Nat.digitChar (SS % 10), Nat.digitChar (SS / 10), ':',
         Nat.digitChar (MI % 10), Nat.digitChar (MI / 10), ':',
         Nat.digitChar (HH % 10), Nat.digitChar (HH / 10), 'T',
         Nat.digitChar (D % 10), Nat.digitChar (D / 10), '-',
         Nat.digitChar (MO % 10), Nat.digitChar (MO / 10), '-',
         Nat.digitChar (Y % 10), Nat.digitChar (Y / 10 % 10), Nat.digitChar (Y / 100 % 10),
         Nat.digitChar (Y / 1000)] := by
      rw [hdata]
      rfl
    have hsplit : tzSplit s.data = some
        ([Nat.digitChar (Y / 1000), Nat.digitChar (Y / 100 % 10), Nat.digitChar (Y / 10 % 10),
          Nat.digitChar (Y % 10), '-', Nat.digitChar (MO / 10), Nat.digitChar (MO % 10),
          '-', Nat.digitChar (D / 10), Nat.digitChar (D % 10),
          'T', Nat.digitChar (HH / 10), Nat.digitChar (HH % 10),
          ':', Nat.digitChar (MI / 10), Nat.digitChar (MI % 10),
          ':', Nat.digitChar (SS / 10), Nat.digitChar (SS % 10)],
         (-((OH : Int) * 60 + OM))) := by
      rw [tzSplit, hrev]
      simp only []
      rw [if_neg hneZ, hpOH, hpOM]
      simp only [Option.some_bind, if_true]
      rfl
    constructor
    · rw [isIsoWithTz, hrev]
      simp only []
      rw [if_neg hneZ]
      simp [hdig1, hdig2, hdig3, hdig4]
    · rw [dateParseTz, hsplit]
      simp only [Option.some_bind]
      rw [hnp]
      simp only [Option.some_bind]
      rw [if_pos hifrange]

/-- C10: rendering an instant with `toIsoInFixedOffset` and re-parsing with
`parseIsoInFixedOffset` under any declared offset returns exactly the instant, for
offsets below 100 hours in magnitude, whole-second instants, and local calendar years
with four digits; the rendered string carries an explicit offset suffix, so the
declared offset argument is ignored. -/
theorem c10_render_parse_roundtrip (t o o2 : Int) (ho : o.natAbs < 6000)
    (ht : t % 1000 = 0)
    (hy1 : 1000 ≤ (civilFromDays ((t + o * 60000) / 86400000)).1)
    (hy2 : (civilFromDays ((t + o * 60000) / 86400000)).1 ≤ 9999) :
    parseIsoInFixedOffset (toIsoInFixedOffset t o) o2 = .ok t := by
  have htod0 : 0 ≤ (t + o * 60000) % 86400000 := Int.emod_nonneg _ (by norm_num)
  have htod1 : (t + o * 60000) % 86400000 < 86400000 := Int.emod_lt_of_pos _ (by norm_num)
  have hsplitms : 86400000 * ((t + o * 60000) / 86400000) + (t + o * 60000) % 86400000 =
      t + o * 60000 := Int.ediv_add_emod _ _
  have htod1000 : (t + o * 60000) % 86400000 % 1000 = 0 := by omega
  obtain ⟨hrt, hmo1, hmo2, hd1, hd2⟩ := daysFromCivil_civilFromDays ((t + o * 60000) / 86400000)
  have hdata := toIso_data t o ho hy1 hy2
  have hsgn : ((if 0 ≤ o then '+' else '-') = '+' ∧
        o = ((o.natAbs / 60 : Nat) : Int) * 60 + ((o.natAbs % 60 : Nat) : Int)) ∨
      ((if 0 ≤ o then '+' else '-') = '-' ∧
        o = -(((o.natAbs / 60 : Nat) : Int) * 60 + ((o.natAbs % 60 : Nat) : Int))) := by
    by_cases hs : 0 ≤ o
    · exact Or.inl ⟨if_pos hs, by omega⟩
    · exact Or.inr ⟨if_neg hs, by omega⟩
  have hshape := tz_shape_parse (toIsoInFixedOffset t o)
    (civilFromDays ((t + o * 60000) / 86400000)).1.toNat
    (civilFromDays ((t + o * 60000) / 86400000)).2.1.toNat
    (civilFromDays ((t + o * 60000) / 86400000)).2.2.toNat
    ((t + o * 60000) % 86400000 / 3600000).toNat
    ((t + o * 60000) % 86400000 % 3600000 / 60000).toNat
    ((t + o * 60000) % 86400000 % 60000 / 1000).toNat
    (o.natAbs / 60) (o.natAbs % 60) (if 0 ≤ o then '+' else '-') o
    (by omega) (by omega) (by omega) (by omega) (by omega) (by omega) (by omega)
    (by omega) (by omega) (by omega) (by omega) hsgn hdata
  have hYcast : (((civilFromDays ((t + o * 60000) / 86400000)).1.toNat : Int)) =
      (civilFromDays ((t + o * 60000) / 86400000)).1 := Int.toNat_of_nonneg (by omega)
  have hMOcast : (((civilFromDays ((t + o * 60000) / 86400000)).2.1.toNat : Int)) =
      (civilFromDays ((t + o * 60000) / 86400000)).2.1 := Int.toNat_of_nonneg (by omega)
  have hDcast : (((civilFromDays ((t + o * 60000) / 86400000)).2.2.toNat : Int)) =
      (civilFromDays ((t + o * 60000) / 86400000)).2.2 := Int.toNat_of_nonneg (by omega)
  have hHHcast : ((((t + o * 60000) % 86400000 / 3600000).toNat : Int)) =
      (t + o * 60000) % 86400000 / 3600000 := Int.toNat_of_nonneg (by omega)
  have hMIcast : ((((t + o * 60000) % 86400000 % 3600000 / 60000).toNat : Int)) =
      (t + o * 60000) % 86400000 % 3600000 / 60000 := Int.toNat_of_nonneg (by omega)
  have hSScast : ((((t + o * 60000) % 86400000 % 60000 / 1000).toNat : Int)) =
      (t + o * 60000) % 86400000 % 60000 / 1000 := Int.toNat_of_nonneg (by omega)
  obtain ⟨hTz, hDP⟩ := hshape
  rw [hYcast, hMOcast, hDcast, hHHcast, hMIcast, hSScast] at hDP
  have hvalue : fieldsToUtc (civilFromDays ((t + o * 60000) / 86400000)).1
      (civilFromDays ((t + o * 60000) / 86400000)).2.1
      (civilFromDays ((t + o * 60000) / 86400000)).2.2
      ((t + o * 60000) % 86400000 / 3600000)
      ((t + o * 60000) % 86400000 % 3600000 / 60000)
      ((t + o * 60000) % 86400000 % 60000 / 1000) - o * 60000 = t := by
    rw [fieldsToUtc, hrt]
    omega
  rw [hvalue] at hDP
  rw [parseIsoInFixedOffset, if_pos hTz, hDP]

/-- Witness instantiating the round trip at 2026-01-15T08:00:00Z rendered at +01:30,
parsed under a different declared offset. -/
theorem c10_render_parse_roundtrip_witness :
    parseIsoInFixedOffset (toIsoInFixedOffset 1768464000000 90) (-30) = .ok 1768464000000 :=
  c10_render_parse_roundtrip 1768464000000 90 (-30) (by decide) (by decide) (by decide)
    (by decide)

/-! ### Dose spacing (C9) -/

/-- C9: for every frequency 1..6, the per-day dose intervals produced by the rounded
even-spacing formula of `generateScheduledTimes` (taking the next cycle anchor at
offset 1440 as successor of the last dose) sum to exactly 1440 minutes. -/
theorem c9_daily_intervals_sum (n : Int) (h1 : 1 ≤ n) (h2 : n ≤ 6) :
    ((List.range n.toNat).map fun i =>
      jsRound (((i + 1 : Nat) : Int) * 1440) n - jsRound ((i : Int) * 1440) n).sum = 1440 := by
  interval_cases n <;> decide

/-- Witness for C9 at frequency 3. -/
theorem c9_daily_intervals_sum_witness :
    ((List.range (3 : Int).toNat).map fun i =>
      jsRound (((i + 1 : Nat) : Int) * 1440) 3 - jsRound ((i : Int) * 1440) 3).sum = 1440 :=
  c9_daily_intervals_sum 3 (by decide) (by decide)

/-! ### Timestamp parsing failure (C2) -/

/-- C2 counterexample: the claim says date-only strings parse successfully, but
`parseIsoInFixedOffset` rejects the date-only string 2026-01-15 with the malformed
naive-timestamp error. -/
theorem c2_dateonly_counterexample :
    parseIsoInFixedOffset "2026-01-15" 0 = .error "invalid naive iso: 2026-01-15" := by
  rfl

/-- C2 amended: parsing fails exactly when the string is neither a recognized
offset/zone-qualified form nor a match of the naive datetime shape; in particular
every date-only `YYYY-MM-DD` digit string fails. -/
theorem c2_amended_error_characterization :
    (∀ (iso : String) (off : Int),
      (∃ e, parseIsoInFixedOffset iso off = .error e) ↔
        (if isIsoWithTz iso then dateParseTz iso = none else naiveParse iso.data = none)) ∧
    (∀ (a b c d e f g h : Nat) (off : Int), a < 10 → b < 10 → c < 10 → d < 10 → e < 10 →
      f < 10 → g < 10 → h < 10 →
      ∃ msg, parseIsoInFixedOffset
        (String.mk [Nat.digitChar a, Nat.digitChar b, Nat.digitChar c, Nat.digitChar d, '-',
          Nat.digitChar e, Nat.digitChar f, '-', Nat.digitChar g, Nat.digitChar h]) off =
        .error msg) := by
  constructor
  · intro iso off
    rw [parseIsoInFixedOffset]
    by_cases hTz : isIsoWithTz iso
    · rw [if_pos hTz, if_pos hTz]
      cases hdp : dateParseTz iso with
      | some ms => simp [hdp]
      | none => simp [hdp]
    · rw [if_neg hTz, if_neg hTz]
      cases hnp : naiveParse iso.data with
      | some fields =>
          obtain ⟨y, mo, d, hh, mi, ss⟩ := fields
          simp [hnp]
      | none => simp [hnp]
  · intro a b c d e f g h off ha hb hc hd he hf hg hh
    have hrev : (String.mk [Nat.digitChar a, Nat.digitChar b, Nat.digitChar c, Nat.digitChar d,
        '-', Nat.digitChar e, Nat.digitChar f, '-', Nat.digitChar g, Nat.digitChar h]).data.reverse
        = [Nat.digitChar h, Nat.digitChar g, '-', Nat.digitChar f, Nat.digitChar e, '-',
           Nat.digitChar d, Nat.digitChar c, Nat.digitChar b, Nat.digitChar a] := rfl
    have hneZ := (digitChar_ne_special h hh).1
    have hTz : isIsoWithTz (String.mk [Nat.digitChar a, Nat.digitChar b, Nat.digitChar c,
        Nat.digitChar d, '-', Nat.digitChar e, Nat.digitChar f, '-', Nat.digitChar g,
        Nat.digitChar h]) = false := by
      rw [isIsoWithTz, hrev]
      simp only []
      rw [if_neg hneZ]
      simp
    rw [parseIsoInFixedOffset, if_neg (by rw [hTz]; exact Bool.false_ne_true)]
    have hnp : naiveParse [Nat.digitChar a, Nat.digitChar b, Nat.digitChar c, Nat.digitChar d,
        '-', Nat.digitChar e, Nat.digitChar f, '-', Nat.digitChar g, Nat.digitChar h] = none := by
      rfl
    rw [show (String.mk [Nat.digitChar a, Nat.digitChar b, Nat.digitChar c, Nat.digitChar d, '-',
      Nat.digitChar e, Nat.digitChar f, '-', Nat.digitChar g, Nat.digitChar h]).data =
      [Nat.digitChar a, Nat.digitChar b, Nat.digitChar c, Nat.digitChar d, '-',
       Nat.digitChar e, Nat.digitChar f, '-', Nat.digitChar g, Nat.digitChar h] from rfl, hnp]
    exact ⟨_, rfl⟩

/-- Witness for the C2 amended characterization: an unparseable garbage string errors,
and the characterization confirms it. -/
theorem c2_amended_error_characterization_witness :
    ∃ msg, parseIsoInFixedOffset
      (String.mk [Nat.digitChar 2, Nat.digitChar 0, Nat.digitChar 2, Nat.digitChar 6, '-',
        Nat.digitChar 0, Nat.digitChar 1, '-', Nat.digitChar 1, Nat.digitChar 5]) 0 =
      .error msg :=
  c2_amended_error_characterization.2 2 0 2 6 0 1 1 5 0 (by decide) (by decide) (by decide)
    (by decide) (by decide) (by decide) (by decide) (by decide)

/-! ### Determinism (C7) -/

/-- C7: the pipeline is deterministic: equal inputs give identical outputs, and the
event identifier is a function of the order id and the rendered timestamp alone. -/
theorem c7_deterministic :
    (∀ i1 i2 : GenInput, i1 = i2 → generateDoseEvents i1 = generateDoseEvents i2) ∧
    (∀ d1 d2 : ScheduledDose, d1.orderId = d2.orderId →
      toIsoInFixedOffset d1.utcMs d1.tzOffset = toIsoInFixedOffset d2.utcMs d2.tzOffset →
      (mkEvent d1).event_id = (mkEvent d2).event_id) := by
  constructor
  · intro i1 i2 h
    rw [h]
  · intro d1 d2 h1 h2
    simp only [mkEvent, h1, h2]

/-- Witness for C7: two doses differing in priority, patient and window share order id
and rendered time, hence the identical event identifier. -/
theorem c7_deterministic_witness :
    (mkEvent { orderId := "OX", patientId := "p", group := none, priority := 1,
               utcMs := 1768464000000, tzOffset := 0, windowMs := 0 }).event_id =
    (mkEvent { orderId := "OX", patientId := "q", group := some "g", priority := 5,
               utcMs := 1768464000000, tzOffset := 0, windowMs := 60000 }).event_id :=
  c7_deterministic.2 _ _ rfl rfl

/-! ### Fail-fast validation (C5) -/

theorem validateOrders_first_error (pre : List Order) (bad : Order) (rest : List Order)
    (e : String) (hpre : ∀ o ∈ pre, validateOrder o = .ok ())
    (hbad : validateOrder bad = .error e) :
    validateOrders (pre ++ bad :: rest) = .error e := by
  induction pre with
  | nil =>
      simp only [List.nil_append, validateOrders, hbad]
  | cons o t ih =>
      have ho : validateOrder o = .ok () := hpre o (List.mem_cons_self o t)
      have ht : ∀ x ∈ t, validateOrder x = .ok () := fun x hx => hpre x (List.mem_cons_of_mem _ hx)
      simp only [List.cons_append, validateOrders, ho]
      exact ih ht

/-- C5: an out-of-range `days` fails with the days validation error regardless of the
orders; with valid `days`, the first invalid order in list order determines the error;
and a failing call never returns an event list. -/
theorem c5_fail_fast :
    (∀ inp : GenInput, (inp.days < 1 ∨ 30 < inp.days) →
      generateDoseEvents inp = .error "days must be 1..30") ∧
    (∀ (inp : GenInput) (pre : List Order) (bad : Order) (rest : List Order) (e : String),
      inp.orders = pre ++ bad :: rest → ¬(inp.days < 1 ∨ 30 < inp.days) →
      (∀ o ∈ pre, validateOrder o = .ok ()) → validateOrder bad = .error e →
      generateDoseEvents inp = .error e) ∧
    (∀ (inp : GenInput) (e : String) (evs : List DoseEvent),
      generateDoseEvents inp = .error e → generateDoseEvents inp ≠ .ok evs) := by
  refine ⟨?_, ?_, ?_⟩
  · intro inp h
    rw [generateDoseEvents, if_pos h]
  · intro inp pre bad rest e horders hdays hpre hbad
    rw [generateDoseEvents, if_neg hdays, horders, validateOrders_first_error pre bad rest e
      hpre hbad]
  · intro inp e evs herr
    rw [herr]
    exact fun h => Except.noConfusion h

/-- Witness for C5: days = 31 fails before touching the (invalid) order list, and an
order with priority 6 fails with the priority error. -/
theorem c5_fail_fast_witness :
    generateDoseEvents { start_date := "2026-01-15", days := 31, orders := [] } =
      .error "days must be 1..30" ∧
    generateDoseEvents
      { start_date := "2026-01-15", days := 1,
        orders := [{ order_id := "A", patient_id := "P", tz_offset_minutes := 0,
                     start_datetime := "2026-01-15T00:00", end_datetime := none,
                     frequency_per_day := 1, window_minutes := 0,
                     do_not_overlap_group := none, priority := 6 }] } =
      .error "priority must be 1..5" :=
  ⟨c5_fail_fast.1 _ (by decide),
   c5_fail_fast.2.1 _ [] _ [] _ rfl (by decide) (by intro o ho; cases ho) (by rfl)⟩

/-! ### Horizon boundary example (C8) -/

/-- C8: one day starting 2026-01-15 with a single daily order at offset 0 starting at
local midnight with no end yields exactly one event, scheduled at
2026-01-15T08:00:00+00:00 (the second generated cycle falls outside the horizon). -/
theorem c8_horizon_boundary :
    generateDoseEvents
      { start_date := "2026-01-15", days := 1,
        orders := [{ order_id := "O1", patient_id := "P1", tz_offset_minutes := 0,
                     start_datetime := "2026-01-15T00:00", end_datetime := none,
                     frequency_per_day := 1, window_minutes := 0,
                     do_not_overlap_group := none, priority := 3 }] } =
      .ok [{ event_id := sha256Hex "O1|2026-01-15T08:00:00+00:00", order_id := "O1",
             scheduled_time := "2026-01-15T08:00:00+00:00", status := "SCHEDULED" }] := by
  rfl

/-! ### Stable sort facts -/

theorem mem_insertLe (le : α → α → Bool) (x a : α) :
    ∀ l : List α, a ∈ insertLe le x l ↔ a = x ∨ a ∈ l := by
  intro l
  induction l with
  | nil => simp [insertLe]
  | cons y t ih =>
      rw [insertLe]
      by_cases h : le x y = true
      · rw [if_pos h]
        simp
      · rw [if_neg h]
        simp only [List.mem_cons, ih]
        tauto

theorem insertLe_perm (le : α → α → Bool) (x : α) :
    ∀ l : List α, List.Perm (insertLe le x l) (x :: l) := by
  intro l
  induction l with
  | nil => simp [insertLe]
  | cons y t ih =>
      rw [insertLe]
      by_cases h : le x y = true
      · rw [if_pos h]
      · rw [if_neg h]
        exact List.Perm.trans (List.Perm.cons y ih) (List.Perm.swap x y t)

theorem sortBy_perm (le : α → α → Bool) : ∀ l : List α, List.Perm (sortBy le l) l := by
  intro l
  induction l with
  | nil => exact List.Perm.refl []
  | cons x t ih =>
      rw [sortBy]
      exact List.Perm.trans (insertLe_perm le x _) (List.Perm.cons x ih)

theorem mem_sortBy (le : α → α → Bool) (l : List α) (a : α) : a ∈ sortBy le l ↔ a ∈ l :=
  (sortBy_perm le l).mem_iff

theorem pairwise_insertLe (le : α → α → Bool)
    (htotal : ∀ a b, le a b = true ∨ le b a = true)
    (htrans : ∀ a b c, le a b = true → le b c = true → le a c = true) (x : α) :
    ∀ l : List α, List.Pairwise (fun a b => le a b = true) l →
      List.Pairwise (fun a b => le a b = true) (insertLe le x l) := by
  intro l
  induction l with
  | nil => intro _; simp [insertLe]
  | cons y t ih =>
      intro hp
      rw [List.pairwise_cons] at hp
      rw [insertLe]
      by_cases h : le x y = true
      · rw [if_pos h]
        rw [List.pairwise_cons]
        refine ⟨?_, List.pairwise_cons.mpr hp⟩
        intro b hb
        rcases List.mem_cons.mp hb with rfl | hbt
        · exact h
        · exact htrans x y b h (hp.1 b hbt)
      · rw [if_neg h]
        rw [List.pairwise_cons]
        refine ⟨?_, ih hp.2⟩
        intro b hb
        rcases (mem_insertLe le x b t).mp hb with rfl | hbt
        · rcases htotal b y with hby | hyb
          · exact absurd hby h
          · exact hyb
        · exact hp.1 b hbt

theorem sortBy_pairwise (le : α → α → Bool)
    (htotal : ∀ a b, le a b = true ∨ le b a = true)
    (htrans : ∀ a b c, le a b = true → le b c = true → le a c = true) :
    ∀ l : List α, List.Pairwise (fun a b => le a b = true) (sortBy le l) := by
  intro l
  induction l with
  | nil => simp [sortBy]
  | cons x t ih => exact pairwise_insertLe le htotal htrans x _ ih

theorem doseLe_total (a b : ScheduledDose) : doseLe a b = true ∨ doseLe b a = true := by
  rw [doseLe, doseLe]
  simp only [Bool.or_eq_true, Bool.and_eq_true, decide_eq_true_eq]
  rcases lt_trichotomy a.priority b.priority with h | h | h
  · exact Or.inr (Or.inl h)
  · rcases lt_trichotomy a.orderId b.orderId with h2 | h2 | h2
    · exact Or.inl (Or.inr ⟨h, Or.inl h2⟩)
    · rcases le_total a.utcMs b.utcMs with h3 | h3
      · exact Or.inl (Or.inr ⟨h, Or.inr ⟨h2, h3⟩⟩)
      · exact Or.inr (Or.inr ⟨h.symm, Or.inr ⟨h2.symm, h3⟩⟩)
    · exact Or.inr (Or.inr ⟨h.symm, Or.inl h2⟩)
  · exact Or.inl (Or.inl h)

theorem doseLe_trans (a b c : ScheduledDose) (h1 : doseLe a b = true) (h2 : doseLe b c = true) :
    doseLe a c = true := by
  rw [doseLe] at h1 h2 ⊢
  simp only [Bool.or_eq_true, Bool.and_eq_true, decide_eq_true_eq] at h1 h2 ⊢
  rcases h1 with h1 | ⟨h1p, h1r⟩
  · rcases h2 with h2 | ⟨h2p, _⟩
    · exact Or.inl (h2.trans h1)
    · exact Or.inl (h2p ▸ h1)
  · rcases h2 with h2 | ⟨h2p, h2r⟩
    · exact Or.inl (h1p ▸ h2)
    · refine Or.inr ⟨h1p.trans h2p, ?_⟩
      rcases h1r with h1o | ⟨h1o, h1u⟩
      · rcases h2r with h2o | ⟨h2o, _⟩
        · exact Or.inl (h1o.trans h2o)
        · exact Or.inl (h2o ▸ h1o)
      · rcases h2r with h2o | ⟨h2o, h2u⟩
        · exact Or.inl (h1o ▸ h2o)
        · exact Or.inr ⟨h1o.trans h2o, h1u.trans h2u⟩

theorem finalLe_total (a b : ScheduledDose) : finalLe a b = true ∨ finalLe b a = true := by
  rw [finalLe, finalLe]
  simp only [Bool.or_eq_true, Bool.and_eq_true, decide_eq_true_eq]
  rcases lt_trichotomy a.utcMs b.utcMs with h | h | h
  · exact Or.inl (Or.inl h)
  · rcases le_total a.orderId b.orderId with h2 | h2
    · exact Or.inl (Or.inr ⟨h, h2⟩)
    · exact Or.inr (Or.inr ⟨h.symm, h2⟩)
  · exact Or.inr (Or.inl h)

theorem finalLe_trans (a b c : ScheduledDose) (h1 : finalLe a b = true)
    (h2 : finalLe b c = true) : finalLe a c = true := by
  rw [finalLe] at h1 h2 ⊢
  simp only [Bool.or_eq_true, Bool.and_eq_true, decide_eq_true_eq] at h1 h2 ⊢
  rcases h1 with h1 | ⟨h1u, h1o⟩
  · rcases h2 with h2 | ⟨h2u, _⟩
    · exact Or.inl (h1.trans h2)
    · exact Or.inl (h2u ▸ h1)
  · rcases h2 with h2 | ⟨h2u, h2o⟩
    · exact Or.inl (h1u ▸ h2)
    · exact Or.inr ⟨h1u.trans h2u, h1o.trans h2o⟩

/-! ### Greedy scan invariants -/

theorem lookup_mem_int {k : Int} {b : ScheduledDose} :
    ∀ l : List (Int × ScheduledDose), List.lookup k l = some b → (k, b) ∈ l := by
  intro l
  induction l with
  | nil => intro h; exact absurd h (by simp)
  | cons p t ih =>
      intro h
      rw [List.lookup] at h
      cases hk : (k == p.1) with
      | true =>
          rw [hk] at h
          have h1 : k = p.1 := eq_of_beq hk
          have h2 : p.2 = b := Option.some_inj.mp h
          have hp : p = (k, b) := by
            obtain ⟨p1, p2⟩ := p
            simp only at h1 h2
            rw [h1, h2]
          rw [hp]
          exact List.mem_cons_self _ _
      | false =>
          rw [hk] at h
          exact List.mem_cons_of_mem p (ih h)

theorem hasConflict_iff (st : List (Int × ScheduledDose) × List ScheduledDose)
    (d : ScheduledDose)
    (h1 : ∀ p ∈ st.1, p.2 ∈ st.2 ∧ p.1 = bucketOf p.2)
    (h2 : ∀ a ∈ st.2, List.lookup (bucketOf a) st.1 = some a) :
    hasConflict st.1 d = true ↔ ∃ a ∈ st.2, (d.utcMs - a.utcMs).natAbs < 3600000 := by
  constructor
  · intro hc
    rw [hasConflict, List.any_eq_true] at hc
    obtain ⟨j, hjmem, hj⟩ := hc
    cases hlk : List.lookup (bucketOf d - 60 + (j : Int)) st.1 with
    | none => rw [hlk] at hj; exact absurd hj (by simp)
    | some other =>
        rw [hlk] at hj
        simp only [decide_eq_true_eq] at hj
        have hmem := lookup_mem_int st.1 hlk
        exact ⟨other, (h1 _ hmem).1, hj⟩
  · rintro ⟨a, ha, hclose⟩
    rw [hasConflict, List.any_eq_true]
    have hb1 : bucketOf d - 60 ≤ bucketOf a := by
      rw [bucketOf, bucketOf]
      omega
    have hb2 : bucketOf a ≤ bucketOf d + 60 := by
      rw [bucketOf, bucketOf]
      omega
    refine ⟨(bucketOf a - bucketOf d + 60).toNat, List.mem_range.mpr (by omega), ?_⟩
    have hkey : bucketOf d - 60 + (((bucketOf a - bucketOf d + 60).toNat : Nat) : Int) =
        bucketOf a := by omega
    rw [hkey, h2 a ha]
    simp [hclose]

theorem scanStep_state (st : List (Int × ScheduledDose) × List ScheduledDose)
    (d : ScheduledDose)
    (h1 : ∀ p ∈ st.1, p.2 ∈ st.2 ∧ p.1 = bucketOf p.2)
    (h2 : ∀ a ∈ st.2, List.lookup (bucketOf a) st.1 = some a)
    (h3 : List.Pairwise (fun a b => 3600000 ≤ (a.utcMs - b.utcMs).natAbs) st.2) :
    (∀ p ∈ (scanStep st d).1, p.2 ∈ (scanStep st d).2 ∧ p.1 = bucketOf p.2) ∧
    (∀ a ∈ (scanStep st d).2, List.lookup (bucketOf a) (scanStep st d).1 = some a) ∧
    List.Pairwise (fun a b => 3600000 ≤ (a.utcMs - b.utcMs).natAbs) (scanStep st d).2 ∧
    ((scanStep st d).2 = st.2 ∨ (scanStep st d).2 = st.2 ++ [d]) := by
  rw [scanStep]
  by_cases hc : hasConflict st.1 d = true
  · rw [if_pos hc]
    exact ⟨h1, h2, h3, Or.inl rfl⟩
  · rw [if_neg hc]
    have hnoclose : ∀ a ∈ st.2, ¬((d.utcMs - a.utcMs).natAbs < 3600000) := by
      intro a ha hcl
      exact hc ((hasConflict_iff st d h1 h2).mpr ⟨a, ha, hcl⟩)
    refine ⟨?_, ?_, ?_, Or.inr rfl⟩
    · intro p hp
      rcases List.mem_cons.mp hp with rfl | hpt
      · exact ⟨by simp, rfl⟩
      · obtain ⟨hm, hb⟩ := h1 p hpt
        exact ⟨by simp [hm], hb⟩
    · intro a ha
      simp only [List.mem_append, List.mem_singleton] at ha
      rcases ha with ha | rfl
      · have hne : bucketOf a ≠ bucketOf d := by
          intro heq
          apply hnoclose a ha
          have := h1
          rw [bucketOf, bucketOf] at heq
          omega
        rw [List.lookup]
        have : (bucketOf a == bucketOf d) = false := by
          simp only [beq_eq_false_iff_ne, ne_eq]
          exact hne
        rw [this]
        exact h2 a ha
      · rw [List.lookup]
        simp
    · rw [List.pairwise_append]
      refine ⟨h3, List.pairwise_singleton _ _, ?_⟩
      intro a ha b hb
      rw [List.mem_singleton] at hb
      subst hb
      have := hnoclose a ha
      omega

theorem scanState_inv (gs : List ScheduledDose) :
    (∀ p ∈ (scanState gs).1, p.2 ∈ (scanState gs).2 ∧ p.1 = bucketOf p.2) ∧
    (∀ a ∈ (scanState gs).2, List.lookup (bucketOf a) (scanState gs).1 = some a) ∧
    List.Pairwise (fun a b => 3600000 ≤ (a.utcMs - b.utcMs).natAbs) (scanState gs).2 := by
  induction gs using List.reverseRecOn with
  | nil =>
      refine ⟨?_, ?_, ?_⟩ <;> simp [scanState]
  | append_singleton t d ih =>
      obtain ⟨h1, h2, h3⟩ := ih
      have hst : scanState (t ++ [d]) = scanStep (scanState t) d := by
        rw [scanState, scanState, List.foldl_append]
        rfl
      obtain ⟨g1, g2, g3, _⟩ := scanStep_state (scanState t) d h1 h2 h3
      rw [hst]
      exact ⟨g1, g2, g3⟩

theorem scanState_append_singleton (pre : List ScheduledDose) (d : ScheduledDose) :
    scanState (pre ++ [d]) = scanStep (scanState pre) d := by
  rw [scanState, scanState, List.foldl_append]
  rfl

/-- Positional rejection characterisation: the occurrence `d` after prefix `pre` is
rejected exactly when some previously accepted candidate lies strictly within 60
minutes of it. -/
theorem scan_reject_iff (pre : List ScheduledDose) (d : ScheduledDose) :
    (scanState (pre ++ [d])).2 = (scanState pre).2 ↔
      ∃ a ∈ (scanState pre).2, (d.utcMs - a.utcMs).natAbs < 3600000 := by
  obtain ⟨h1, h2, _⟩ := scanState_inv pre
  rw [scanState_append_singleton, scanStep]
  by_cases hc : hasConflict (scanState pre).1 d = true
  · rw [if_pos hc]
    simp only [true_iff]
    exact (hasConflict_iff _ d h1 h2).mp hc
  · rw [if_neg hc]
    constructor
    · intro hlen
      exact absurd (congrArg List.length hlen) (by simp)
    · intro hex
      exact absurd ((hasConflict_iff _ d h1 h2).mpr hex) hc

theorem scanState_kept_grow : ∀ (l : List ScheduledDose)
    (st : List (Int × ScheduledDose) × List ScheduledDose),
    ∃ ext, (l.foldl scanStep st).2 = st.2 ++ ext := by
  intro l
  induction l with
  | nil => intro st; exact ⟨[], by simp⟩
  | cons d t ih =>
      intro st
      rw [List.foldl_cons]
      by_cases hc : hasConflict st.1 d = true
      · have hstep : scanStep st d = st := by rw [scanStep, if_pos hc]
        rw [hstep]
        exact ih st
      · have hstep : scanStep st d = ((bucketOf d, d) :: st.1, st.2 ++ [d]) := by
          rw [scanStep, if_neg hc]
        rw [hstep]
        obtain ⟨ext, hext⟩ := ih ((bucketOf d, d) :: st.1, st.2 ++ [d])
        exact ⟨d :: ext, by rw [hext]; simp⟩

theorem scanState_kept_subset : ∀ (l : List ScheduledDose)
    (st : List (Int × ScheduledDose) × List ScheduledDose) (a : ScheduledDose),
    a ∈ (l.foldl scanStep st).2 → a ∈ st.2 ∨ a ∈ l := by
  intro l
  induction l with
  | nil => intro st a ha; exact Or.inl ha
  | cons d t ih =>
      intro st a ha
      rw [List.foldl_cons] at ha
      rcases ih (scanStep st d) a ha with hin | hin
      · by_cases hc : hasConflict st.1 d = true
        · have hstep : scanStep st d = st := by rw [scanStep, if_pos hc]
          rw [hstep] at hin
          exact Or.inl hin
        · have hstep : scanStep st d = ((bucketOf d, d) :: st.1, st.2 ++ [d]) := by
            rw [scanStep, if_neg hc]
          rw [hstep] at hin
          simp only [List.mem_append, List.mem_singleton] at hin
          rcases hin with hin | rfl
          · exact Or.inl hin
          · exact Or.inr (List.mem_cons_self _ _)
      · exact Or.inr (List.mem_cons_of_mem _ hin)

theorem scanGroup_subset (gs : List ScheduledDose) (a : ScheduledDose)
    (ha : a ∈ scanGroup gs) : a ∈ gs := by
  rcases scanState_kept_subset gs ([], []) a ha with h | h
  · exact absurd h (by simp)
  · exact h

/-! ### Grouping invariants -/

theorem insertGrouped_mem_cases :
    ∀ (acc : List (String × List ScheduledDose)) (k : String) (d : ScheduledDose)
      (p : String × List ScheduledDose), p ∈ insertGrouped acc k d →
      (p.1 ∈ acc.map Prod.fst ∨ p.1 = k) := by
  intro acc
  induction acc with
  | nil =>
      intro k d p hp
      rw [insertGrouped] at hp
      rcases List.mem_singleton.mp hp with rfl
      exact Or.inr rfl
  | cons q t ih =>
      intro k d p hp
      obtain ⟨q1, q2⟩ := q
      rw [insertGrouped] at hp
      by_cases hk : q1 = k
      · rw [if_pos hk] at hp
        rcases List.mem_cons.mp hp with rfl | hpt
        · exact Or.inl (by simp)
        · exact Or.inl (by simp; exact Or.inr ⟨p.2, by simpa using hpt⟩)
      · rw [if_neg hk] at hp
        rcases List.mem_cons.mp hp with rfl | hpt
        · exact Or.inl (by simp)
        · rcases ih k d p hpt with hin | hin
          · exact Or.inl (by simp; exact Or.inr (by simpa using hin))
          · exact Or.inr hin

theorem insertGrouped_values :
    ∀ (acc : List (String × List ScheduledDose)) (k : String) (d : ScheduledDose)
      (p : String × List ScheduledDose) (x : ScheduledDose),
      p ∈ insertGrouped acc k d → x ∈ p.2 →
      (∃ q ∈ acc, q.1 = p.1 ∧ x ∈ q.2) ∨ (x = d ∧ p.1 = k) := by
  intro acc
  induction acc with
  | nil =>
      intro k d p x hp hx
      rw [insertGrouped] at hp
      rcases List.mem_singleton.mp hp with rfl
      rcases List.mem_singleton.mp hx with rfl
      exact Or.inr ⟨rfl, rfl⟩
  | cons q t ih =>
      intro k d p x hp hx
      obtain ⟨q1, q2⟩ := q
      rw [insertGrouped] at hp
      by_cases hk : q1 = k
      · rw [if_pos hk] at hp
        rcases List.mem_cons.mp hp with rfl | hpt
        · simp only [List.mem_append, List.mem_singleton] at hx
          rcases hx with hx | rfl
          · exact Or.inl ⟨(q1, q2), List.mem_cons_self _ _, rfl, hx⟩
          · exact Or.inr ⟨rfl, hk⟩
        · exact Or.inl ⟨p, List.mem_cons_of_mem _ hpt, rfl, hx⟩
      · rw [if_neg hk] at hp
        rcases List.mem_cons.mp hp with rfl | hpt
        · exact Or.inl ⟨(q1, q2), List.mem_cons_self _ _, rfl, hx⟩
        · rcases ih k d p x hpt hx with ⟨r, hr, hr1, hr2⟩ | hnew
          · exact Or.inl ⟨r, List.mem_cons_of_mem _ hr, hr1, hr2⟩
          · exact Or.inr hnew

theorem insertGrouped_pairwise_keys :
    ∀ (acc : List (String × List ScheduledDose)) (k : String) (d : ScheduledDose),
      List.Pairwise (fun p q => p.1 ≠ q.1) acc →
      List.Pairwise (fun p q => p.1 ≠ q.1) (insertGrouped acc k d) := by
  intro acc
  induction acc with
  | nil =>
      intro k d _
      rw [insertGrouped]
      exact List.pairwise_singleton _ _
  | cons q t ih =>
      intro k d hpw
      obtain ⟨q1, q2⟩ := q
      rw [List.pairwise_cons] at hpw
      rw [insertGrouped]
      by_cases hk : q1 = k
      · rw [if_pos hk]
        rw [List.pairwise_cons]
        exact ⟨hpw.1, hpw.2⟩
      · rw [if_neg hk]
        rw [List.pairwise_cons]
        refine ⟨?_, ih k d hpw.2⟩
        intro p hp
        rcases insertGrouped_mem_cases t k d p hp with hin | hin
        · obtain ⟨r, hr, hre⟩ := List.mem_map.mp hin
          have hne := hpw.1 r hr
          simp only at hne ⊢
          rw [← hre]
          exact hne
        · rw [hin]
          exact hk
  
theorem groupByKey_key_eq (ds : List ScheduledDose) :
    ∀ p ∈ groupByKey ds, ∀ x ∈ p.2, doseKey x = p.1 := by
  rw [groupByKey]
  induction ds using List.reverseRecOn with
  | nil => intro p hp; exact absurd hp (by simp)
  | append_singleton t d ih =>
      rw [List.foldl_append, List.foldl_cons, List.foldl_nil]
      intro p hp x hx
      rcases insertGrouped_values _ (doseKey d) d p x hp hx with ⟨q, hq, hq1, hq2⟩ | ⟨rfl, hk⟩
      · rw [← hq1]
        exact ih q hq x hq2
      · rw [hk]

theorem groupByKey_keys_pairwise (ds : List ScheduledDose) :
    List.Pairwise (fun p q => p.1 ≠ q.1) (groupByKey ds) := by
  rw [groupByKey]
  induction ds using List.reverseRecOn with
  | nil => simp
  | append_singleton t d ih =>
      rw [List.foldl_append, List.foldl_cons, List.foldl_nil]
      exact insertGrouped_pairwise_keys _ (doseKey d) d ih

/-! ### Conflict resolution invariant (C1) -/

theorem pairwise_of_forall_rel {α : Type} {R : α → α → Prop} :
    ∀ l : List α, (∀ a ∈ l, ∀ b, R a b) → List.Pairwise R l := by
  intro l
  induction l with
  | nil => intro _; exact List.Pairwise.nil
  | cons x t ih =>
      intro h
      rw [List.pairwise_cons]
      exact ⟨fun b _ => h x (List.mem_cons_self x t) b,
        ih fun a ha b => h a (List.mem_cons_of_mem x ha) b⟩

theorem pairwise_flatMap_groups
    (L : List (String × List ScheduledDose))
    (hkeys : List.Pairwise (fun p q => p.1 ≠ q.1) L)
    (hval : ∀ p ∈ L, ∀ x ∈ scanGroup (sortBy doseLe p.2), doseKey x = p.1)
    (hin : ∀ p ∈ L, List.Pairwise (fun a b => 3600000 ≤ (a.utcMs - b.utcMs).natAbs)
      (scanGroup (sortBy doseLe p.2))) :
    List.Pairwise (fun d1 d2 =>
      (d1.patientId = d2.patientId ∧ d1.group = d2.group ∧ d1.group ≠ none ∧
        d1.group ≠ some "") → 3600000 ≤ (d1.utcMs - d2.utcMs).natAbs)
      (L.flatMap fun kg => scanGroup (sortBy doseLe kg.2)) := by
  induction L with
  | nil => simp
  | cons p t ih =>
      rw [List.pairwise_cons] at hkeys
      rw [List.flatMap_cons, List.pairwise_append]
      refine ⟨?_, ?_, ?_⟩
      · have himp : ∀ {a b : ScheduledDose}, 3600000 ≤ (a.utcMs - b.utcMs).natAbs →
            ((a.patientId = b.patientId ∧ a.group = b.group ∧ a.group ≠ none ∧
              a.group ≠ some "") → 3600000 ≤ (a.utcMs - b.utcMs).natAbs) := fun h _ => h
        exact List.Pairwise.imp himp (hin p (List.mem_cons_self p t))
      · exact ih hkeys.2 (fun q hq => hval q (List.mem_cons_of_mem p hq))
          (fun q hq => hin q (List.mem_cons_of_mem p hq))
      · intro d1 hd1 d2 hd2 ⟨hpa, hgr, _, _⟩
        exfalso
        obtain ⟨q, hq, hd2q⟩ := List.mem_flatMap.mp hd2
        have hk1 : doseKey d1 = p.1 := hval p (List.mem_cons_self p t) d1 hd1
        have hk2 : doseKey d2 = q.1 := hval q (List.mem_cons_of_mem p hq) d2 hd2q
        have hkk : doseKey d1 = doseKey d2 := by
          rw [doseKey, doseKey, hpa, hgr]
        exact hkeys.1 q hq (by rw [← hk1, ← hk2, hkk])

/-- C1 counterexample: two orders for the same patient in the same non-null (empty
string) mutual-exclusion group both keep their coincident 08:00 dose, because the
falsy-group check sends empty-string groups past conflict resolution. -/
theorem c1_accepted_separation_counterexample :
    ¬ (∀ ds : List ScheduledDose,
        genAll "2026-01-15" 1
          [{ order_id := "A", patient_id := "P", tz_offset_minutes := 0,
             start_datetime := "2026-01-15T00:00", end_datetime := none,
             frequency_per_day := 1, window_minutes := 0,
             do_not_overlap_group := some "", priority := 3 },
           { order_id := "B", patient_id := "P", tz_offset_minutes := 0,
             start_datetime := "2026-01-15T00:00", end_datetime := none,
             frequency_per_day := 1, window_minutes := 0,
             do_not_overlap_group := some "", priority := 3 }] = .ok ds →
        List.Pairwise (fun d1 d2 =>
          (d1.patientId = d2.patientId ∧ d1.group = d2.group ∧ d1.group ≠ none) →
            3600000 ≤ (d1.utcMs - d2.utcMs).natAbs) (resolveOverlaps ds)) := by
  intro h
  exact absurd (h _ rfl) (by decide)

/-- C1 amended: accepted candidates sharing a patient and a non-null, non-empty group
name are at least 60 minutes apart, and during each group's greedy scan an occurrence
is rejected exactly when a previously accepted candidate of the same group lies
strictly within 60 minutes of it. -/
theorem c1_amended_accepted_separation :
    (∀ ds : List ScheduledDose,
      List.Pairwise (fun d1 d2 =>
        (d1.patientId = d2.patientId ∧ d1.group = d2.group ∧ d1.group ≠ none ∧
          d1.group ≠ some "") → 3600000 ≤ (d1.utcMs - d2.utcMs).natAbs)
        (resolveOverlaps ds)) ∧
    (∀ (ds : List ScheduledDose) (key : String) (gl pre post : List ScheduledDose)
       (d : ScheduledDose),
      (key, gl) ∈ groupByKey (ds.filter fun x => !groupFalsy x.group) →
      sortBy doseLe gl = pre ++ d :: post →
      ((scanState (pre ++ [d])).2 = (scanState pre).2 ↔
        ∃ a ∈ (scanState pre).2, (d.utcMs - a.utcMs).natAbs < 3600000)) := by
  constructor
  · intro ds
    rw [resolveOverlaps]
    rw [List.pairwise_append]
    refine ⟨?_, ?_, ?_⟩
    · apply pairwise_of_forall_rel
      intro a ha b hfact
      exfalso
      have hfalsy : groupFalsy a.group = true := (List.mem_filter.mp ha).2
      obtain ⟨_, _, hne, hne2⟩ := hfact
      cases hga : a.group with
      | none => exact hne hga
      | some g =>
          rw [hga] at hfalsy
          rw [groupFalsy] at hfalsy
          simp only [decide_eq_true_eq] at hfalsy
          rw [hfalsy] at hga
          exact hne2 hga
    · apply pairwise_flatMap_groups
      · exact groupByKey_keys_pairwise _
      · intro p hp x hx
        have hxin : x ∈ p.2 := (mem_sortBy doseLe p.2 x).mp (scanGroup_subset _ x hx)
        exact groupByKey_key_eq _ p hp x hxin
      · intro p hp
        exact (scanState_inv (sortBy doseLe p.2)).2.2
    · intro d1 hd1 d2 hd2 hfact
      exfalso
      have hfalsy : groupFalsy d1.group = true := (List.mem_filter.mp hd1).2
      obtain ⟨_, _, hne, hne2⟩ := hfact
      cases hga : d1.group with
      | none => exact hne hga
      | some g =>
          rw [hga] at hfalsy
          rw [groupFalsy] at hfalsy
          simp only [decide_eq_true_eq] at hfalsy
          rw [hfalsy] at hga
          exact hne2 hga
  · intro ds key gl pre post d hkg hsplit
    exact scan_reject_iff pre d

/-- Witness for the amended C1: a concrete two-dose group in which the second dose,
10 minutes after the first, is rejected precisely because of the accepted first. -/
theorem c1_amended_accepted_separation_witness :
    (scanState ([({ orderId := "A", patientId := "p", group := some "g", priority := 5, utcMs := 0, tzOffset := 0, windowMs := 0 } : ScheduledDose)] ++ [({ orderId := "B", patientId := "p", group := some "g", priority := 1, utcMs := 600000, tzOffset := 0, windowMs := 0 } : ScheduledDose)])).2 =
      (scanState [({ orderId := "A", patientId := "p", group := some "g", priority := 5, utcMs := 0, tzOffset := 0, windowMs := 0 } : ScheduledDose)]).2 ↔
    ∃ a ∈ (scanState [({ orderId := "A", patientId := "p", group := some "g", priority := 5, utcMs := 0, tzOffset := 0, windowMs := 0 } : ScheduledDose)]).2,
      ((({ orderId := "B", patientId := "p", group := some "g", priority := 1, utcMs := 600000, tzOffset := 0, windowMs := 0 } : ScheduledDose)).utcMs - a.utcMs).natAbs < 3600000 :=
  c1_amended_accepted_separation.2
    [({ orderId := "A", patientId := "p", group := some "g", priority := 5, utcMs := 0, tzOffset := 0, windowMs := 0 } : ScheduledDose),
     ({ orderId := "B", patientId := "p", group := some "g", priority := 1, utcMs := 600000, tzOffset := 0, windowMs := 0 } : ScheduledDose)]
    "p::g"
    [({ orderId := "A", patientId := "p", group := some "g", priority := 5, utcMs := 0, tzOffset := 0, windowMs := 0 } : ScheduledDose),
     ({ orderId := "B", patientId := "p", group := some "g", priority := 1, utcMs := 600000, tzOffset := 0, windowMs := 0 } : ScheduledDose)]
    [({ orderId := "A", patientId := "p", group := some "g", priority := 5, utcMs := 0, tzOffset := 0, windowMs := 0 } : ScheduledDose)]
    []
    ({ orderId := "B", patientId := "p", group := some "g", priority := 1, utcMs := 600000, tzOffset := 0, windowMs := 0 } : ScheduledDose)
    (by decide) (by decide)

/-! ### Priority dominance (C4) -/

/-- C4 counterexample: the string-joined grouping key collides for patient `p::g` with
group `x` and patient `p` with group `g::x`; the lower-priority dose is rejected, but
no accepted candidate shares its (patient, group) pair at all, let alone one with a
strictly earlier sort tuple. -/
theorem c4_priority_dominance_counterexample :
    ¬ (∀ ds : List ScheduledDose,
        genAll "2026-01-15" 1
          [{ order_id := "A", patient_id := "p::g", tz_offset_minutes := 0,
             start_datetime := "2026-01-15T00:00", end_datetime := none,
             frequency_per_day := 1, window_minutes := 0,
             do_not_overlap_group := some "x", priority := 5 },
           { order_id := "B", patient_id := "p", tz_offset_minutes := 0,
             start_datetime := "2026-01-15T00:00", end_datetime := none,
             frequency_per_day := 1, window_minutes := 0,
             do_not_overlap_group := some "g::x", priority := 1 }] = .ok ds →
        ∀ d ∈ ds, d ∉ resolveOverlaps ds →
          ∃ a ∈ resolveOverlaps ds, a.patientId = d.patientId ∧ a.group = d.group ∧
            (d.utcMs - a.utcMs).natAbs < 3600000 ∧
            (d.priority < a.priority ∨ (a.priority = d.priority ∧
              (a.orderId < d.orderId ∨ (a.orderId = d.orderId ∧ a.utcMs < d.utcMs))))) := by
  intro h
  exact absurd (h _ rfl) (by decide)

/-- C4 amended: a candidate rejected during its group's greedy scan has an accepted
candidate of the same concatenated patient-group key strictly within 60 minutes whose
(priority desc, order id asc, instant asc) sort tuple is earlier or equal. -/
theorem c4_amended_priority_dominance (ds : List ScheduledDose) (key : String)
    (gl pre post : List ScheduledDose) (d : ScheduledDose)
    (hkg : (key, gl) ∈ groupByKey (ds.filter fun x => !groupFalsy x.group))
    (hsplit : sortBy doseLe gl = pre ++ d :: post)
    (hrej : (scanState (pre ++ [d])).2 = (scanState pre).2) :
    ∃ a ∈ scanGroup (sortBy doseLe gl), doseKey a = doseKey d ∧
      (d.utcMs - a.utcMs).natAbs < 3600000 ∧ doseLe a d = true := by
  obtain ⟨a, ha, hclose⟩ := (scan_reject_iff pre d).mp hrej
  have hexp : scanGroup (sortBy doseLe gl) = ((d :: post).foldl scanStep (scanState pre)).2 := by
    rw [scanGroup, hsplit, scanState, scanState, List.foldl_append]
  obtain ⟨ext, hext⟩ := scanState_kept_grow (d :: post) (scanState pre)
  have hafin : a ∈ scanGroup (sortBy doseLe gl) := by
    rw [hexp, hext]
    exact List.mem_append_left _ ha
  have hapre : a ∈ pre := by
    rcases scanState_kept_subset pre ([], []) a ha with habs | hain
    · exact absurd habs (by simp)
    · exact hain
  have hagl : a ∈ gl := by
    have : a ∈ sortBy doseLe gl := by
      rw [hsplit]
      exact List.mem_append_left _ hapre
    exact (mem_sortBy doseLe gl a).mp this
  have hdgl : d ∈ gl := by
    have : d ∈ sortBy doseLe gl := by
      rw [hsplit]
      exact List.mem_append_right _ (List.mem_cons_self d post)
    exact (mem_sortBy doseLe gl d).mp this
  have hka : doseKey a = key := groupByKey_key_eq _ (key, gl) hkg a hagl
  have hkd : doseKey d = key := groupByKey_key_eq _ (key, gl) hkg d hdgl
  have hpw := sortBy_pairwise doseLe doseLe_total doseLe_trans gl
  rw [hsplit, List.pairwise_append] at hpw
  exact ⟨a, hafin, hka.trans hkd.symm, hclose,
    hpw.2.2 a hapre d (List.mem_cons_self d post)⟩

/-- Witness for the amended C4 at a concrete group with a 10-minute collision. -/
theorem c4_amended_priority_dominance_witness :
    ∃ a ∈ scanGroup (sortBy doseLe
      [({ orderId := "A", patientId := "q", group := some "h", priority := 4, utcMs := 0, tzOffset := 0, windowMs := 0 } : ScheduledDose),
       ({ orderId := "C", patientId := "q", group := some "h", priority := 2, utcMs := 600000, tzOffset := 0, windowMs := 0 } : ScheduledDose)]),
      doseKey a = doseKey ({ orderId := "C", patientId := "q", group := some "h", priority := 2, utcMs := 600000, tzOffset := 0, windowMs := 0 } : ScheduledDose) ∧
      ((({ orderId := "C", patientId := "q", group := some "h", priority := 2, utcMs := 600000, tzOffset := 0, windowMs := 0 } : ScheduledDose)).utcMs - a.utcMs).natAbs < 3600000 ∧
      doseLe a ({ orderId := "C", patientId := "q", group := some "h", priority := 2, utcMs := 600000, tzOffset := 0, windowMs := 0 } : ScheduledDose) = true :=
  c4_amended_priority_dominance
    [({ orderId := "A", patientId := "q", group := some "h", priority := 4, utcMs := 0, tzOffset := 0, windowMs := 0 } : ScheduledDose),
     ({ orderId := "C", patientId := "q", group := some "h", priority := 2, utcMs := 600000, tzOffset := 0, windowMs := 0 } : ScheduledDose)]
    "q::h"
    [({ orderId := "A", patientId := "q", group := some "h", priority := 4, utcMs := 0, tzOffset := 0, windowMs := 0 } : ScheduledDose),
     ({ orderId := "C", patientId := "q", group := some "h", priority := 2, utcMs := 600000, tzOffset := 0, windowMs := 0 } : ScheduledDose)]
    [({ orderId := "A", patientId := "q", group := some "h", priority := 4, utcMs := 0, tzOffset := 0, windowMs := 0 } : ScheduledDose)]
    []
    ({ orderId := "C", patientId := "q", group := some "h", priority := 2, utcMs := 600000, tzOffset := 0, windowMs := 0 } : ScheduledDose)
    (by decide) (by decide) (by decide)

/-! ### Output form (C6) -/

theorem finalLe_iff (a b : ScheduledDose) :
    finalLe a b = true ↔ (a.utcMs < b.utcMs ∨ (a.utcMs = b.utcMs ∧ a.orderId ≤ b.orderId)) := by
  rw [finalLe]
  simp [Bool.or_eq_true, Bool.and_eq_true, decide_eq_true_eq]

/-- C6: a successful call returns exactly the accepted candidates sorted by instant
then order id, each rendered in its own order's offset with the fixed SCHEDULED
status. -/
theorem c6_output_form (inp : GenInput) (evs : List DoseEvent)
    (h : generateDoseEvents inp = .ok evs) :
    ∃ ws : List ScheduledDose,
      List.Pairwise (fun a b => a.utcMs < b.utcMs ∨ (a.utcMs = b.utcMs ∧ a.orderId ≤ b.orderId))
        ws ∧
      evs = ws.map mkEvent ∧
      (∀ d ∈ ws, (mkEvent d).scheduled_time = toIsoInFixedOffset d.utcMs d.tzOffset) ∧
      (∀ e ∈ evs, e.status = "SCHEDULED") := by
  rw [generateDoseEvents] at h
  by_cases hdays : inp.days < 1 ∨ 30 < inp.days
  · rw [if_pos hdays] at h
    exact absurd h (by simp)
  · rw [if_neg hdays] at h
    cases hv : validateOrders inp.orders with
    | error e => rw [hv] at h; exact absurd h (by simp)
    | ok u =>
        rw [hv] at h
        cases hg : genAll inp.start_date inp.days inp.orders with
        | error e => rw [hg] at h; exact absurd h (by simp)
        | ok allDoses =>
            rw [hg] at h
            simp only [Except.ok.injEq] at h
            refine ⟨sortBy finalLe (resolveOverlaps allDoses), ?_, h.symm, fun d _ => rfl, ?_⟩
            · have hpw := sortBy_pairwise finalLe finalLe_total finalLe_trans
                (resolveOverlaps allDoses)
              exact hpw.imp (fun hab => (finalLe_iff _ _).mp hab)
            · intro e he
              rw [← h] at he
              obtain ⟨d, _, rfl⟩ := List.mem_map.mp he
              rfl

/-- Witness for C6 at the concrete one-order input. -/
theorem c6_output_form_witness :
    ∃ ws : List ScheduledDose,
      List.Pairwise (fun a b => a.utcMs < b.utcMs ∨ (a.utcMs = b.utcMs ∧ a.orderId ≤ b.orderId))
        ws ∧
      [({ event_id := sha256Hex "O1|2026-01-15T08:00:00+00:00", order_id := "O1", scheduled_time := "2026-01-15T08:00:00+00:00", status := "SCHEDULED" } : DoseEvent)] = ws.map mkEvent ∧
      (∀ d ∈ ws, (mkEvent d).scheduled_time = toIsoInFixedOffset d.utcMs d.tzOffset) ∧
      (∀ e ∈ [({ event_id := sha256Hex "O1|2026-01-15T08:00:00+00:00", order_id := "O1", scheduled_time := "2026-01-15T08:00:00+00:00", status := "SCHEDULED" } : DoseEvent)], e.status = "SCHEDULED") :=
  c6_output_form
    { start_date := "2026-01-15", days := 1,
      orders := [{ order_id := "O1", patient_id := "P1", tz_offset_minutes := 0,
                   start_datetime := "2026-01-15T00:00", end_datetime := none,
                   frequency_per_day := 1, window_minutes := 0,
                   do_not_overlap_group := none, priority := 3 }] }
    [({ event_id := sha256Hex "O1|2026-01-15T08:00:00+00:00", order_id := "O1", scheduled_time := "2026-01-15T08:00:00+00:00", status := "SCHEDULED" } : DoseEvent)]
    (by rfl)

/-! ### Candidate generation (C3) -/

theorem dedupGo_subset : ∀ (seen : List String) (l : List ScheduledDose) (d : ScheduledDose),
    d ∈ dedupGo seen l → d ∈ l := by
  intro seen l
  induction l generalizing seen with
  | nil => intro d hd; exact absurd hd (by rw [dedupGo] at hd; exact (by simp at hd))
  | cons x t ih =>
      intro d hd
      rw [dedupGo] at hd
      by_cases hx : dedupKey x ∈ seen
      · rw [if_pos hx] at hd
        exact List.mem_cons_of_mem x (ih seen d hd)
      · rw [if_neg hx] at hd
        rcases List.mem_cons.mp hd with rfl | hdt
        · exact List.mem_cons_self _ _
        · exact List.mem_cons_of_mem x (ih _ d hdt)

theorem dedupGo_covers : ∀ (seen : List String) (l : List ScheduledDose) (d : ScheduledDose),
    d ∈ l → dedupKey d ∉ seen → ∃ d2 ∈ dedupGo seen l, dedupKey d2 = dedupKey d := by
  intro seen l
  induction l generalizing seen with
  | nil => intro d hd; exact absurd hd (by simp)
  | cons x t ih =>
      intro d hd hseen
      rw [dedupGo]
      rcases List.mem_cons.mp hd with rfl | hdt
      · rw [if_neg hseen]
        exact ⟨d, List.mem_cons_self _ _, rfl⟩
      · by_cases hx : dedupKey x ∈ seen
        · rw [if_pos hx]
          exact ih seen d hdt hseen
        · rw [if_neg hx]
          by_cases hkey : dedupKey d = dedupKey x
          · exact ⟨x, List.mem_cons_self _ _, hkey.symm⟩
          · have hseen2 : dedupKey d ∉ dedupKey x :: seen := by
              simp only [List.mem_cons]
              exact fun hc => hc.elim hkey hseen
            obtain ⟨d2, hd2, hd2k⟩ := ih _ d hdt hseen2
            exact ⟨d2, List.mem_cons_of_mem x hd2, hd2k⟩

theorem dedupGo_keys_nodup : ∀ (seen : List String) (l : List ScheduledDose),
    ((dedupGo seen l).map dedupKey).Nodup ∧ ∀ d ∈ dedupGo seen l, dedupKey d ∉ seen := by
  intro seen l
  induction l generalizing seen with
  | nil =>
      constructor
      · rw [dedupGo]; simp
      · intro d hd; rw [dedupGo] at hd; simp at hd
  | cons x t ih =>
      rw [dedupGo]
      by_cases hx : dedupKey x ∈ seen
      · rw [if_pos hx]
        exact ih seen
      · rw [if_neg hx]
        obtain ⟨ihn, ihs⟩ := ih (dedupKey x :: seen)
        constructor
        · rw [List.map_cons, List.nodup_cons]
          refine ⟨?_, ihn⟩
          intro hc
          obtain ⟨d2, hd2, hd2k⟩ := List.mem_map.mp hc
          have := ihs d2 hd2
          rw [hd2k] at this
          exact this (List.mem_cons_self _ _)
        · intro d hd
          rcases List.mem_cons.mp hd with rfl | hdt
          · exact hx
          · exact fun hc => ihs d hdt (List.mem_cons_of_mem _ hc)

theorem string_append_cancel_left (s t1 t2 : String) (h : s ++ t1 = s ++ t2) : t1 = t2 := by
  have hd := congrArg String.data h
  simp only [String.data_append] at hd
  exact String.ext (List.append_cancel_left hd)

theorem dedupKey_inj_same_order (d1 d2 : ScheduledDose) (h : d1.orderId = d2.orderId)
    (hk : dedupKey d1 = dedupKey d2) : d1.utcMs = d2.utcMs := by
  rw [dedupKey, dedupKey, h] at hk
  rw [String.append_assoc, String.append_assoc] at hk
  have h2 := string_append_cancel_left _ _ _ hk
  have h3 := string_append_cancel_left "|" _ _ h2
  exact intRepr_inj _ _ h3


theorem candidateDoses_orderId (days : Int) (o : Order) (gs os effE : Int)
    (d : ScheduledDose) (hd : d ∈ candidateDoses days o gs os effE) :
    d.orderId = o.order_id := by
  simp only [candidateDoses] at hd
  obtain ⟨c, hc, hd2⟩ := List.mem_flatMap.mp hd
  obtain ⟨i, hi, hd3⟩ := List.mem_filterMap.mp hd2
  by_cases hcond : max gs os ≤ gs + 8 * 60 * 60000 + (c : Int) * 86400000 +
      jsRound ((i : Int) * 1440) o.frequency_per_day * 60000 ∧
      gs + 8 * 60 * 60000 + (c : Int) * 86400000 +
        jsRound ((i : Int) * 1440) o.frequency_per_day * 60000 ≤ effE
  · rw [if_pos hcond] at hd3
    cases hd3
    rfl
  · rw [if_neg hcond] at hd3
    exact absurd hd3 (by simp)

theorem candidateDoses_utcMs (days : Int) (o : Order) (gs os effE : Int)
    (hdays : 1 ≤ days) (t : Int) :
    (∃ d ∈ candidateDoses days o gs os effE, d.utcMs = t) ↔
      (∃ c ≤ days.toNat, ∃ i < o.frequency_per_day.toNat,
        t = gs + 8 * 60 * 60000 + (c : Int) * 86400000 +
          jsRound ((i : Int) * 1440) o.frequency_per_day * 60000 ∧
        max gs os ≤ t ∧ t ≤ effE) := by
  constructor
  · rintro ⟨d, hd, rfl⟩
    simp only [candidateDoses] at hd
    obtain ⟨c, hc, hd2⟩ := List.mem_flatMap.mp hd
    obtain ⟨i, hi, hd3⟩ := List.mem_filterMap.mp hd2
    rw [List.mem_range] at hc
    simp only [List.bind_eq_flatMap, List.mem_flatMap, List.mem_range, List.mem_pure] at hi
    obtain ⟨m, hm, rfl⟩ := hi
    by_cases hcond : max gs os ≤ gs + 8 * 60 * 60000 + (c : Int) * 86400000 +
        jsRound ((m : Int) * 1440) o.frequency_per_day * 60000 ∧
        gs + 8 * 60 * 60000 + (c : Int) * 86400000 +
          jsRound ((m : Int) * 1440) o.frequency_per_day * 60000 ≤ effE
    · rw [if_pos hcond] at hd3
      cases hd3
      exact ⟨c, by omega, m, hm, rfl, hcond.1, hcond.2⟩
    · rw [if_neg hcond] at hd3
      exact absurd hd3 (by simp)
  · rintro ⟨c, hc, i, hi, rfl, hlo, hhi⟩
    refine ⟨{ orderId := o.order_id, patientId := o.patient_id,
              group := o.do_not_overlap_group, priority := o.priority,
              utcMs := gs + 8 * 60 * 60000 + (c : Int) * 86400000 +
                jsRound ((i : Int) * 1440) o.frequency_per_day * 60000,
              tzOffset := o.tz_offset_minutes,
              windowMs := o.window_minutes * 60000 }, ?_, rfl⟩
    simp only [candidateDoses]
    refine List.mem_flatMap.mpr ⟨c, List.mem_range.mpr (by omega), ?_⟩
    refine List.mem_filterMap.mpr ⟨(i : Int), ?_, ?_⟩
    · simp only [List.bind_eq_flatMap, List.mem_flatMap, List.mem_range, List.mem_pure]
      exact ⟨i, hi, rfl⟩
    · rw [if_pos ⟨hlo, hhi⟩]

/-- C3: for a validated order and horizon with parseable timestamps, the generated
candidate instants are exactly the template instants (local midnight of the start
date plus 8 hours, one cycle per calendar day plus one extra, doses spaced by the
rounded 1440/n-minute formula) lying inclusively between the effective start (the
later of the horizon start and the order start) and the effective end (the horizon
end clipped by the order end); the instants of one order are pairwise distinct
after deduplication; and an empty effective window yields no candidates. -/
theorem c3_candidate_characterization (startDate : String) (days : Int) (o : Order)
    (gs os : Int) (endOpt : Option Int)
    (hdays1 : 1 ≤ days) (hdays2 : days ≤ 30)
    (hval : validateOrder o = .ok ())
    (hmid : localMidnightUtcMs startDate o.tz_offset_minutes = .ok gs)
    (hos : parseIsoInFixedOffset o.start_datetime o.tz_offset_minutes = .ok os)
    (hend : (match o.end_datetime with
             | none => Except.ok Option.none
             | some e => (parseIsoInFixedOffset e o.tz_offset_minutes).map Option.some) =
              .ok endOpt) :
    ∃ ds, generateScheduledTimes startDate days o = .ok ds ∧
      (∀ t : Int, (∃ d ∈ ds, d.utcMs = t) ↔
        (∃ c ≤ days.toNat, ∃ i < o.frequency_per_day.toNat,
          t = gs + 8 * 60 * 60000 + (c : Int) * 86400000 +
            jsRound ((i : Int) * 1440) o.frequency_per_day * 60000 ∧
          max gs os ≤ t ∧ t ≤ effectiveEndOf gs days endOpt)) ∧
      (ds.map (fun d => d.utcMs)).Nodup ∧
      (effectiveEndOf gs days endOpt < max gs os → ds = []) := by
  have hgen : generateScheduledTimes startDate days o =
      (if effectiveEndOf gs days endOpt < max gs os then Except.ok []
       else Except.ok (dedupGo []
         (candidateDoses days o gs os (effectiveEndOf gs days endOpt)))) := by
    simp only [generateScheduledTimes, hmid, hos, hend, effectiveEndOf, candidateDoses]
  by_cases hempty : effectiveEndOf gs days endOpt < max gs os
  · refine ⟨[], ?_, ?_, by simp, fun _ => rfl⟩
    · rw [hgen, if_pos hempty]
    · intro t
      simp only [List.not_mem_nil, false_and, exists_false, exists_const, false_iff]
      rintro ⟨c, hc, i, hi, rfl, hlo, hhi⟩
      omega
  · refine ⟨dedupGo [] (candidateDoses days o gs os (effectiveEndOf gs days endOpt)),
      ?_, ?_, ?_, fun hcontra => absurd hcontra hempty⟩
    · rw [hgen, if_neg hempty]
    · intro t
      rw [← candidateDoses_utcMs days o gs os (effectiveEndOf gs days endOpt) hdays1 t]
      constructor
      · rintro ⟨d, hd, rfl⟩
        exact ⟨d, dedupGo_subset [] _ d hd, rfl⟩
      · rintro ⟨d, hd, rfl⟩
        obtain ⟨d2, hd2, hd2k⟩ := dedupGo_covers [] _ d hd (by simp)
        have hutc : d2.utcMs = d.utcMs := dedupKey_inj_same_order d2 d
          (by rw [candidateDoses_orderId days o gs os _ d2 (dedupGo_subset [] _ d2 hd2),
                  candidateDoses_orderId days o gs os _ d hd]) hd2k
        exact ⟨d2, hd2, hutc⟩
    · have hkeys := (dedupGo_keys_nodup []
        (candidateDoses days o gs os (effectiveEndOf gs days endOpt))).1
      rw [List.Nodup, List.pairwise_map] at hkeys ⊢
      refine List.Pairwise.imp_of_mem ?_ hkeys
      intro a b ha hb hab hc
      apply hab
      have hoa := candidateDoses_orderId days o gs os _ a (dedupGo_subset [] _ a ha)
      have hob := candidateDoses_orderId days o gs os _ b (dedupGo_subset [] _ b hb)
      simp only [dedupKey, hoa, hob, hc]

/-- Witness for C3 at a concrete once-daily order over a one-day horizon. -/
theorem c3_candidate_characterization_witness :
    ∃ ds, generateScheduledTimes "2026-01-15" 1
        { order_id := "o1", patient_id := "p1", tz_offset_minutes := 0,
          start_datetime := "2026-01-15T00:00", end_datetime := none,
          frequency_per_day := 1, window_minutes := 0,
          do_not_overlap_group := none, priority := 3 } = .ok ds ∧
      (∀ t : Int, (∃ d ∈ ds, d.utcMs = t) ↔
        (∃ c ≤ (1 : Int).toNat, ∃ i < (1 : Int).toNat,
          t = 1768435200000 + 8 * 60 * 60000 + (c : Int) * 86400000 +
            jsRound ((i : Int) * 1440) 1 * 60000 ∧
          max 1768435200000 1768435200000 ≤ t ∧
          t ≤ effectiveEndOf 1768435200000 1 none)) ∧
      (ds.map (fun d => d.utcMs)).Nodup ∧
      (effectiveEndOf 1768435200000 1 none < max 1768435200000 1768435200000 → ds = []) := by
  exact c3_candidate_characterization "2026-01-15" 1
    { order_id := "o1", patient_id := "p1", tz_offset_minutes := 0,
      start_datetime := "2026-01-15T00:00", end_datetime := none,
      frequency_per_day := 1, window_minutes := 0,
      do_not_overlap_group := none, priority := 3 }
    1768435200000 1768435200000 none (by decide) (by decide) (by rfl) (by rfl) (by rfl) (by rfl)
